import Mathlib

/-!
Shallow embedding of `src/src/slurmanalyser/utils.py` (slurm_sim_tools).

Strings are modelled as `List Char` (`Str`), a pandas string column as
`List Cell` where a cell is `Option Str` (`none` models a NaN cell).
Machine floats are modelled by exact rationals: Python `float` /
`datetime.timedelta` / pandas `Timedelta` values are represented as exact
`ℚ` numbers of seconds, abstracting from IEEE-754 rounding, the
microsecond (resp. nanosecond) resolution and the finite ranges of those
types; all claims below are insensitive to that abstraction on the inputs
involved.  Python exceptions are modelled with `Except`.
-/

set_option maxRecDepth 4000

deriving instance DecidableEq for Except

abbrev Str := List Char

abbrev Cell := Option Str

/-- Characters matched by the regex class `[0-9.]`. -/
def isFloatChar (c : Char) : Bool := c.isDigit || c == '.'

/-- Shape of the regex `[0-9.]+`: nonempty, all chars digits or dots. -/
def isFloatChars (l : Str) : Bool := !l.isEmpty && l.all isFloatChar

/-- Shape of the regex `\d+`: nonempty, all chars digits. -/
def isNatStr (l : Str) : Bool := !l.isEmpty && l.all Char.isDigit

/-- Among strings of shape `[0-9.]+`, exactly those with at most one dot and
at least one digit are accepted by Python `float` (e.g. `"1.1.1"` and `"."`
raise `ValueError`). -/
def pyFloatOk (l : Str) : Bool :=
  isFloatChars l && decide (l.count '.' ≤ 1) && l.any Char.isDigit

def digitVal (c : Char) : ℕ := c.toNat - 48

/-- Decimal value of a digit string, as Python `int` (arbitrary precision). -/
def parseNat (l : Str) : ℕ := l.foldl (fun a c => 10 * a + digitVal c) 0

/-- Split a char list at every occurrence of `sep` (like `str.split`). -/
def splitOnChar (sep : Char) : Str → List Str
  | [] => [[]]
  | c :: cs =>
    if c = sep then [] :: splitOnChar sep cs
    else
      match splitOnChar sep cs with
      | [] => [[c]]
      | t :: ts => (c :: t) :: ts

/-- Exact value of a decimal string accepted by Python `float`
(integer part, optional dot, fractional part). -/
def parseFloatQ (l : Str) : ℚ :=
  match splitOnChar '.' l with
  | [i] => (parseNat i : ℚ)
  | [i, f] => (parseNat i : ℚ) + (parseNat f : ℚ) / (10 : ℚ) ^ f.length
  | _ => 0

def digitChar : ℕ → Char
  | 0 => '0'
  | 1 => '1'
  | 2 => '2'
  | 3 => '3'
  | 4 => '4'
  | 5 => '5'
  | 6 => '6'
  | 7 => '7'
  | 8 => '8'
  | 9 => '9'
  | _ => '*'

/-- Decimal digits of a positive natural, most significant first; the
first argument is structural fuel (`n` itself is always enough). -/
def natToStrAux : ℕ → ℕ → Str
  | _, 0 => []
  | 0, _ + 1 => []
  | f + 1, n + 1 => natToStrAux f ((n + 1) / 10) ++ [digitChar ((n + 1) % 10)]

/-- Decimal digits of a positive natural, most significant first. -/
def natToStrGo (n : ℕ) : Str := natToStrAux n n

/-- Decimal representation of a natural number (Python `str(int)`). -/
def natToStr (n : ℕ) : Str := if n = 0 then ['0'] else natToStrGo n

/-- Decimal representation of an integer (Python `str(int)`). -/
def intToStr (i : ℤ) : Str :=
  if i < 0 then '-' :: natToStr i.natAbs else natToStr i.toNat

/-- Python `str.zfill`: left-pad with `'0'` to width `k` (sign handling is
irrelevant here: it is only applied to digit strings). -/
def zfill (k : ℕ) (l : Str) : Str := List.replicate (k - l.length) '0' ++ l

/-- The `check_na` policy strings accepted by `util_check_na`
(`'ignore'`, `'warning'`, `'error'`). -/
inductive Policy where
  | ignore
  | warning
  | error
deriving DecidableEq

/-- Content of the message built by `util_check_na`: the count, the accepted
NA markers and the bounded sample `np.unique(v[non_valid].values)[:20]`.
The f-string formatting itself is not modelled. -/
structure NaMsg where
  count : ℕ
  na_is : List Str
  sample : List Cell
deriving DecidableEq

/-- Exceptions raised by the module, following the taxonomy in the spec:
`validationError` is the `ValueError` raised by `util_check_na`,
`configurationError` the `ValueError` raised on a bad `return_in`,
`formatError` the `Exception("Unknown format for slurm duration: ...")`,
`valueError` the `ValueError` raised by `float(...)` on a malformed group,
`typeError` the `TypeError` raised by `astype("Int64")` on non-integral
floats. -/
inductive UtilError where
  | validationError : NaMsg → UtilError
  | configurationError : Str → UtilError
  | formatError : Str → UtilError
  | valueError : Str → UtilError
  | typeError : UtilError
deriving DecidableEq

/-- `default_na_is = ['', 'Unknown', 'NA', 'NAN', 'NaN', 'NAT', 'NaT', 'nan']` -/
def default_na_is : List Str :=
  [[], "Unknown".toList, "NA".toList, "NAN".toList, "NaN".toList,
   "NAT".toList, "NaT".toList, "nan".toList]

def strLeB : Str → Str → Bool
  | [], _ => true
  | _ :: _, [] => false
  | a :: as, b :: bs => if a = b then strLeB as bs else decide (a < b)

/-- Order used by `np.unique` on an object array of strings; a NaN cell is
ordered first (the concrete inputs in this file contain no NaN cells). -/
def cellLeB : Cell → Cell → Bool
  | none, _ => true
  | some _, none => false
  | some a, some b => strLeB a b

def insertLe (x : Cell) : List Cell → List Cell
  | [] => [x]
  | y :: ys => if cellLeB x y then x :: y :: ys else y :: insertLe x ys

def sortCells : List Cell → List Cell
  | [] => []
  | x :: xs => insertLe x (sortCells xs)

def dedupAdj : List Cell → List Cell
  | [] => []
  | [x] => [x]
  | x :: y :: ys => if x = y then dedupAdj (y :: ys) else x :: dedupAdj (y :: ys)

/-- `np.unique`: sorted distinct values. -/
def npUnique (l : List Cell) : List Cell := dedupAdj (sortCells l)

/-- `v.isin(na_is)` for one cell (a NaN cell is in no string list). -/
def cellIsin (c : Cell) (na : List Str) : Bool :=
  match c with
  | some s => na.contains s
  | none => false

/-- `util_check_na(v, x, na_is, check_na)`.  Returns the returned value
(`None` is modelled as `none`) together with the list of messages passed to
the logger; raising `ValueError` under the `error` policy is `Except.error`.
Mirrors the source: under `'ignore'` it returns immediately (returning
`None`, not the count); otherwise it computes
`non_valid = x.isna() & ~v.isin(na_is)` and, when the count is nonzero,
builds the message and logs / raises according to the policy. -/
def util_check_na {α : Type} (v : List Cell) (x : List (Option α))
    (na_is : Option (List Str)) (check_na : Policy) :
    Except UtilError (Option ℕ × List NaMsg) :=
  if check_na = .ignore then .ok (none, [])
  else
    let na := na_is.getD default_na_is
    let nonValid := (v.zip x).map (fun p => p.2.isNone && !(cellIsin p.1 na))
    let cnt := nonValid.count true
    if cnt ≠ 0 then
      let sample :=
        (npUnique ((v.zip nonValid).filterMap
          (fun p => if p.2 then some p.1 else none))).take 20
      let msg : NaMsg := ⟨cnt, na, sample⟩
      match check_na with
      | .warning => .ok (some cnt, [msg])
      | .error => .error (.validationError msg)
      | .ignore => .ok (some cnt, [])
    else .ok (some cnt, [])

/-- Keys of the `SI_SUFFIXES` tables: `''` and the twelve letters. -/
def SI_SUFFIXES_keys : List Str :=
  [[], ['k'], ['m'], ['g'], ['t'], ['p'], ['e'],
   ['K'], ['M'], ['G'], ['T'], ['P'], ['E']]

/-- The factor assigned to a suffix by `SI_SUFFIXES['binary']` (when
`use1024`) or `SI_SUFFIXES['decimal']`; the source writes the powers as
explicit products (`1024*1024` etc.). Unreachable keys map to 0. -/
def siFactor (use1024 : Bool) (suf : Str) : ℚ :=
  let base : ℚ := if use1024 then 1024 else 1000
  match suf with
  | [] => 1
  | [c] =>
    if c = 'k' ∨ c = 'K' then base
    else if c = 'm' ∨ c = 'M' then base ^ 2
    else if c = 'g' ∨ c = 'G' then base ^ 3
    else if c = 't' ∨ c = 'T' then base ^ 4
    else if c = 'p' ∨ c = 'P' then base ^ 5
    else if c = 'e' ∨ c = 'E' then base ^ 6
    else 0
  | _ => 0

def isSiLetter (c : Char) : Bool :=
  c ∈ ['k', 'm', 'g', 't', 'p', 'e', 'K', 'M', 'G', 'T', 'P', 'E']

/-- `v.str.extract("^([0-9.]+) ?([kmgtpeKMGTPE]?)$")` on one cell: the two
groups on a match, `none` otherwise.  Group 1 is necessarily the maximal
`[0-9.]+` prefix (no later regex element can match a `[0-9.]` character), so
matching is implemented with `takeWhile`/`dropWhile`. -/
def matchNormSi (l : Str) : Option (Str × Str) :=
  let num := l.takeWhile isFloatChar
  let rest := l.dropWhile isFloatChar
  if num.isEmpty then none
  else
    match rest with
    | [] => some (num, [])
    | [c] =>
      if isSiLetter c then some (num, [c])
      else if c = ' ' then some (num, []) else none
    | [' ', c] => if isSiLetter c then some (num, [c]) else none
    | _ => none

/-- Models `pd.to_numeric(·, errors='coerce')` on a string of shape
`[0-9.]+` (the only shape group 1 of the extract above can take): the exact
decimal value when Python accepts it as a float, else NaN. -/
def toNumericFloat (l : Str) : Option ℚ :=
  if pyFloatOk l then some (parseFloatQ l) else none

/-- One cell of `util_norm_si` before NA-check / `return_in` /
`convert_to_int`: extract, replace the suffix by its factor, multiply
(`NaN` propagates through the product). -/
def norm_si_cell (use1024 : Bool) (c : Cell) : Option ℚ :=
  c.bind fun l =>
    (matchNormSi l).bind fun m =>
      (toNumericFloat m.1).map (· * siFactor use1024 m.2)

/-- `round()` of pandas/numpy: round half to even, exact on `ℚ`. -/
def roundHalfEven (q : ℚ) : ℤ :=
  let f := ⌊q⌋
  let r := q - (f : ℚ)
  if r < 1 / 2 then f
  else if 1 / 2 < r then f + 1
  else if f % 2 = 0 then f else f + 1

/-- `util_norm_si(v, convert_to_int, return_in, check_na, na_is, use1024)`.
Source order: extract+convert, `util_check_na`, `return_in` handling
(raising `ValueError` on an unknown unit), then `round().astype("Int64")`
when `convert_to_int`. -/
def util_norm_si (v : List Cell) (convert_to_int : Bool) (return_in : Str)
    (check_na : Policy) (na_is : Option (List Str)) (use1024 : Bool) :
    Except UtilError (List (Option ℚ)) := do
  let x := v.map (norm_si_cell use1024)
  let _ ← util_check_na v x na_is check_na
  let x ←
    if return_in.isEmpty then pure x
    else if SI_SUFFIXES_keys.contains return_in then
      pure (x.map (Option.map (· / siFactor use1024 return_in)))
    else throw (.configurationError return_in)
  pure (if convert_to_int then
          x.map (Option.map (fun q => ((roundHalfEven q : ℤ) : ℚ)))
        else x)

/-- `v.str.extract("^([0-9.]+ ?[kmgtpeKMGTPE]?)([cnCN]?)$")` on one cell.
Group 2 is `[last char]` exactly when the last char is in `[cnCN]` (those
chars cannot occur in group 1); group 1 must then match the inner pattern,
which is the pattern of `util_norm_si`'s extract. -/
def matchMemory (l : Str) : Option (Str × Str) :=
  let p :=
    match l.getLast? with
    | some c => if c ∈ ['c', 'C', 'n', 'N'] then (l.dropLast, [c]) else (l, [])
    | none => (l, [])
  if (matchNormSi p.1).isSome then some p else none

/-- `util_memory(v, convert_to_int, return_in, check_na, na_is, use1024)`:
extract the magnitude and qualifier, delegate the magnitude column to
`util_norm_si`, and flag cells whose qualifier `isin(('c','C'))`. -/
def util_memory (v : List Cell) (convert_to_int : Bool) (return_in : Str)
    (check_na : Policy) (na_is : Option (List Str)) (use1024 : Bool) :
    Except UtilError (List (Option ℚ) × List Bool) := do
  let m := v.map (fun c => c.bind matchMemory)
  let x ← util_norm_si (m.map (Option.map (·.1))) convert_to_int return_in
            check_na na_is use1024
  pure (x, m.map (fun g =>
    match g with
    | some p => p.2 == ['c'] || p.2 == ['C']
    | none => false))

/-- Models `pd.to_numeric(·, errors='coerce')` on a whole cell: an optional
sign followed by a decimal literal (the exponent-free fragment; exponents
and infinities do not occur in the inputs of any claim). NaN cells and
unparseable strings coerce to NaN. -/
def pd_to_numeric_cell (c : Cell) : Option ℚ :=
  c.bind fun l =>
    match l with
    | '-' :: rest => if pyFloatOk rest then some (-(parseFloatQ rest)) else none
    | '+' :: rest => if pyFloatOk rest then some (parseFloatQ rest) else none
    | _ => if pyFloatOk l then some (parseFloatQ l) else none

/-- `util_to_int(v, check_na, na_is, round)`: `to_numeric` with coercion,
optional `round()`, `astype('Int64')` — which raises `TypeError` when some
value is a non-integral float — then `util_check_na`. -/
def util_to_int (v : List Cell) (check_na : Policy)
    (na_is : Option (List Str)) (round : Bool) :
    Except UtilError (List (Option ℚ)) := do
  let x := v.map pd_to_numeric_cell
  let x := if round then
             x.map (Option.map (fun q => ((roundHalfEven q : ℤ) : ℚ)))
           else x
  let x ←
    if x.all (fun c => c.all (fun q => q.den = 1)) then pure x
    else throw .typeError
  let _ ← util_check_na v x na_is check_na
  pure x

/-- `util_to_float(v, check_na, na_is)`. -/
def util_to_float (v : List Cell) (check_na : Policy)
    (na_is : Option (List Str)) : Except UtilError (List (Option ℚ)) := do
  let x := v.map pd_to_numeric_cell
  let _ ← util_check_na v x na_is check_na
  pure x

/-- `util_factorize(v, check_na, na_is)`: `astype('category')` keeps every
value (and every NaN) unchanged, then `util_check_na`. -/
def util_factorize (v : List Cell) (check_na : Policy)
    (na_is : Option (List Str)) : Except UtilError (List Cell) := do
  let x := v
  let _ ← util_check_na v x na_is check_na
  pure x

/-- `util_slurm_datetime_to_datetime(v, check_na, na_is)`.  The datetime
grammar of `pd.to_datetime(·, errors='coerce')` is external library
behaviour irrelevant to the claims; it is abstracted as a parameter
`toDatetime` mapping a cell to `some` timestamp or NaT. -/
def util_slurm_datetime_to_datetime {α : Type}
    (toDatetime : Cell → Option α) (v : List Cell) (check_na : Policy)
    (na_is : Option (List Str)) : Except UtilError (List (Option α)) := do
  let x := v.map toDatetime
  let _ ← util_check_na v x na_is check_na
  pure x

/-- `re.match(r"^(\d+)-(\d+):(\d+):([0-9.]+)$", v)` (days-hours:minutes:seconds).
No group may contain `'-'` or (except the last) `':'`, so a match is exactly a
decomposition along the unique `'-'` and the two `':'` after it. -/
def matchP1 (l : Str) : Option (Str × Str × Str × Str) :=
  match splitOnChar '-' l with
  | [a, rest] =>
    match splitOnChar ':' rest with
    | [b, c, d] =>
      if isNatStr a && isNatStr b && isNatStr c && isFloatChars d then
        some (a, b, c, d)
      else none
    | _ => none
  | _ => none

/-- `re.match(r"^(\d+)-(\d+):(\d+)$", v)` (days-hours:minutes). -/
def matchP2 (l : Str) : Option (Str × Str × Str) :=
  match splitOnChar '-' l with
  | [a, rest] =>
    match splitOnChar ':' rest with
    | [b, c] =>
      if isNatStr a && isNatStr b && isNatStr c then some (a, b, c) else none
    | _ => none
  | _ => none

/-- `re.match(r"^(\d+)-(\d+)$", v)` (days-hours). -/
def matchP3 (l : Str) : Option (Str × Str) :=
  match splitOnChar '-' l with
  | [a, b] => if isNatStr a && isNatStr b then some (a, b) else none
  | _ => none

/-- `re.match(r"^(\d+):(\d+):([0-9.]+)$", v)` (hours:minutes:seconds).
A string containing `'-'` cannot match (the dash would sit inside a group
and fail its character class), so only the `':'` decomposition is tested. -/
def matchP4 (l : Str) : Option (Str × Str × Str) :=
  match splitOnChar ':' l with
  | [a, b, c] =>
    if isNatStr a && isNatStr b && isFloatChars c then some (a, b, c) else none
  | _ => none

/-- `re.match(r"^(\d+):([0-9.]+)$", v)` (minutes:seconds). -/
def matchP5 (l : Str) : Option (Str × Str) :=
  match splitOnChar ':' l with
  | [a, b] => if isNatStr a && isFloatChars b then some (a, b) else none
  | _ => none

/-- `re.match(r"^(\d+)$", v)` (minutes). -/
def matchP6 (l : Str) : Option Str :=
  if isNatStr l then some l else none

/-- Python `float(group)` on a `[0-9.]+`-shaped group: the exact value, or
`ValueError` when the group has several dots or no digit. -/
def pyFloat (l : Str) : Except UtilError ℚ :=
  if pyFloatOk l then .ok (parseFloatQ l) else .error (.valueError l)

/-- `util_slurm_duration_to_timedelta(v)`: try the six regexes in source
order, building `datetime.timedelta(days=…, hours=…, minutes=…, seconds=…)`
(modelled as exact total seconds); on no match return `None` for an NA
marker and raise `Exception(f"Unknown format for slurm duration: {v}")`
otherwise. -/
def slurm_duration_to_timedelta (l : Str) : Except UtilError (Option ℚ) :=
  match matchP1 l with
  | some (a, b, c, d) => do
    let s ← pyFloat d
    pure (some (86400 * (parseNat a : ℚ) + 3600 * (parseNat b : ℚ) +
                60 * (parseNat c : ℚ) + s))
  | none =>
  match matchP2 l with
  | some (a, b, c) =>
    .ok (some (86400 * (parseNat a : ℚ) + 3600 * (parseNat b : ℚ) +
               60 * (parseNat c : ℚ)))
  | none =>
  match matchP3 l with
  | some (a, b) =>
    .ok (some (86400 * (parseNat a : ℚ) + 3600 * (parseNat b : ℚ)))
  | none =>
  match matchP4 l with
  | some (a, b, c) => do
    let s ← pyFloat c
    pure (some (3600 * (parseNat a : ℚ) + 60 * (parseNat b : ℚ) + s))
  | none =>
  match matchP5 l with
  | some (a, b) => do
    let s ← pyFloat b
    pure (some (60 * (parseNat a : ℚ) + s))
  | none =>
  match matchP6 l with
  | some a => .ok (some (60 * (parseNat a : ℚ)))
  | none =>
    if default_na_is.contains l then .ok none else .error (.formatError l)

/-- Whether some of the six duration regexes matches `l`. -/
def matchesSlurmGrammar (l : Str) : Bool :=
  (matchP1 l).isSome || (matchP2 l).isSome || (matchP3 l).isSome ||
  (matchP4 l).isSome || (matchP5 l).isSome || (matchP6 l).isSome

/-- The seconds group of the regex that fires first on `l`, if that regex
has one (patterns 1, 4 and 5; the other patterns cannot match when one of
these does). -/
def durSecondsField (l : Str) : Option Str :=
  match matchP1 l with
  | some (_, _, _, d) => some d
  | none =>
  match matchP4 l with
  | some (_, _, d) => some d
  | none =>
  match matchP5 l with
  | some (_, d) => some d
  | none => none

/-- The seconds group, when present, is accepted by Python `float`. -/
def durSecondsWellFormed (l : Str) : Bool :=
  match durSecondsField l with
  | some d => pyFloatOk d
  | none => true

/-- `v.str.replace(r"^(\d+)$", "\\1 m", regex=True)` on one cell. -/
def rw1 (l : Str) : Str :=
  if isNatStr l then l ++ [' ', 'm'] else l

/-- `v.str.replace(r"^(\d+):([0-9.]+)$", "\\1 m \\2 S", regex=True)`. -/
def rw2 (l : Str) : Str :=
  match splitOnChar ':' l with
  | [a, b] =>
    if isNatStr a && isFloatChars b then a ++ ' ' :: 'm' :: ' ' :: (b ++ [' ', 'S'])
    else l
  | _ => l

/-- `v.str.replace(r"^(\d+)-(\d+)$", "\\1 D \\2 h", regex=True)`. -/
def rw3 (l : Str) : Str :=
  match splitOnChar '-' l with
  | [a, b] =>
    if isNatStr a && isNatStr b then a ++ ' ' :: 'D' :: ' ' :: (b ++ [' ', 'h'])
    else l
  | _ => l

/-- `v.str.replace(r"^(\d+-\d+:\d+)$", "\\1:00", regex=True)`. -/
def rw4 (l : Str) : Str :=
  match splitOnChar '-' l with
  | [a, rest] =>
    match splitOnChar ':' rest with
    | [b, c] =>
      if isNatStr a && isNatStr b && isNatStr c then l ++ [':', '0', '0'] else l
    | _ => l
  | _ => l

/-- `v.str.replace("-", " days ")` (replaces every dash). -/
def rw5 (l : Str) : Str :=
  l.flatMap (fun ch => if ch = '-' then " days ".toList else [ch])

/-- The composed rewriting done by `util_slurm_duration_to_duration` before
calling `pd.to_timedelta`. -/
def rewriteCell (l : Str) : Str := rw5 (rw4 (rw3 (rw2 (rw1 l))))

/-- The seconds-value of a pandas duration unit keyword, for the unit
tokens producible by the rewrites (`m`, `S`, `D`, `h`, `days`). -/
def pdUnitSeconds (u : Str) : Option ℚ :=
  if u = ['m'] then some 60
  else if u = ['S'] then some 1
  else if u = ['D'] then some 86400
  else if u = ['h'] then some 3600
  else none

/-- A pandas clock component `hh:mm:ss[.frac]`. -/
def pdClock (l : Str) : Option ℚ :=
  match splitOnChar ':' l with
  | [a, b, c] =>
    if isNatStr a && isNatStr b && pyFloatOk c then
      some (3600 * (parseNat a : ℚ) + 60 * (parseNat b : ℚ) + parseFloatQ c)
    else none
  | _ => none

/-- A pandas numeric amount before a unit keyword. -/
def pdNum (l : Str) : Option ℚ :=
  if pyFloatOk l then some (parseFloatQ l) else none

/-- Models `pd.to_timedelta(·, errors='coerce')` on one string, restricted
to the fragment of the pandas duration-literal grammar that the rewrites
can produce: a bare clock, `amount unit`, `amount unit amount unit`, and
`amount days clock`; anything else coerces to NaT.  Exact arithmetic
(the int64-nanosecond representation of pandas is abstracted away). -/
def pd_to_timedelta (l : Str) : Option ℚ :=
  match splitOnChar ' ' l with
  | [x] => pdClock x
  | [n, u] => do
    let a ← pdNum n
    let f ← pdUnitSeconds u
    pure (a * f)
  | [n, u, n2, u2] => do
    let a ← pdNum n
    let f ← pdUnitSeconds u
    let a2 ← pdNum n2
    let f2 ← pdUnitSeconds u2
    pure (a * f + a2 * f2)
  | [n, d, x] =>
    if d = "days".toList then do
      let a ← pdNum n
      let c ← pdClock x
      pure (a * 86400 + c)
    else none
  | _ => none

/-- `util_slurm_duration_to_duration(v, check_na, na_is)`: rewrite every
cell, `pd.to_timedelta(·, errors='coerce')`, then `util_check_na` (note the
source passes the rewritten column as `v` there). -/
def util_slurm_duration_to_duration (v : List Cell) (check_na : Policy)
    (na_is : Option (List Str)) : Except UtilError (List (Option ℚ)) := do
  let w := v.map (Option.map rewriteCell)
  let x := w.map (fun c => c.bind pd_to_timedelta)
  let _ ← util_check_na w x na_is check_na
  pure x

/-- Python-style floor division of durations (`td // td'`). -/
def qfdiv (a b : ℚ) : ℤ := ⌊a / b⌋

/-- Python-style mod of durations (`td % td'`), sign of the divisor. -/
def qmod (a b : ℚ) : ℚ := a - b * (⌊a / b⌋ : ℚ)

/-- One cell of `util_timedelta_to_slurm_duration`.  Mirrors the source:
`days = v // 1 day`, `hours = (v % 1 day) // 1 hour`,
`minutes = (v % 1 hour) // 1 minute`, `seconds = (v % 1 minute) // 1 s`
(the two last `left`s are recomputed from `v`, as in the code), the day
prefix `str(days) + "-"` blanked when it equals `"0-"`, two-digit zero
fill, and `"NA"` for a null duration. -/
def timedelta_to_slurm_duration_cell (c : Option ℚ) : Str :=
  match c with
  | none => "NA".toList
  | some v =>
    let days := qfdiv v 86400
    let hours := qfdiv (qmod v 86400) 3600
    let minutes := qfdiv (qmod v 3600) 60
    let seconds := qfdiv (qmod v 60) 1
    let dstr := intToStr days ++ ['-']
    let dstr := if dstr = "0-".toList then [] else dstr
    dstr ++ zfill 2 (intToStr hours) ++
      ':' :: (zfill 2 (intToStr minutes) ++ ':' :: zfill 2 (intToStr seconds))

/-- `util_timedelta_to_slurm_duration(v)` over a duration column. -/
def util_timedelta_to_slurm_duration (v : List (Option ℚ)) : List Str :=
  v.map timedelta_to_slurm_duration_cell

/-- Inverse of `splitOnChar`: interleave the separator between the parts. -/
def joinSep (sep : Char) : List Str → Str
  | [] => []
  | [a] => a
  | a :: b :: rest => a ++ sep :: joinSep sep (b :: rest)

/-! ### Basic lemmas: characters, digit strings, decimal printing -/

theorem not_mem_of_all_eq_true {p : Char → Bool} {l : Str}
    (h : l.all p = true) {c : Char} (hc : p c = false) : c ∉ l := by
  intro hm
  rw [List.all_eq_true] at h
  have := h c hm
  rw [hc] at this
  exact Bool.false_ne_true this

theorem not_mem_of_isNatStr {l : Str} (h : isNatStr l = true)
    {c : Char} (hc : c.isDigit = false) : c ∉ l := by
  have h2 : l.all Char.isDigit = true := by
    simp only [isNatStr, Bool.and_eq_true] at h
    exact h.2
  exact not_mem_of_all_eq_true h2 hc

theorem not_mem_of_isFloatChars {l : Str} (h : isFloatChars l = true)
    {c : Char} (hc : isFloatChar c = false) : c ∉ l := by
  have h2 : l.all isFloatChar = true := by
    simp only [isFloatChars, Bool.and_eq_true] at h
    exact h.2
  exact not_mem_of_all_eq_true h2 hc

theorem isFloatChars_of_isNatStr {l : Str} (h : isNatStr l = true) :
    isFloatChars l = true := by
  simp only [isNatStr, Bool.and_eq_true, List.all_eq_true] at h
  simp only [isFloatChars, Bool.and_eq_true, List.all_eq_true]
  refine ⟨h.1, fun c hc => ?_⟩
  simp only [isFloatChar, Bool.or_eq_true]
  exact Or.inl (h.2 c hc)

theorem pyFloatOk_of_isNatStr {l : Str} (h : isNatStr l = true) :
    pyFloatOk l = true := by
  have hf := isFloatChars_of_isNatStr h
  have hdot : ('.' : Char) ∉ l := not_mem_of_isNatStr h (by decide)
  have hcount : l.count '.' = 0 := List.count_eq_zero.mpr hdot
  simp only [pyFloatOk, hf, hcount, Bool.and_eq_true, decide_eq_true_eq,
    List.any_eq_true]
  refine ⟨⟨trivial, by omega⟩, ?_⟩
  simp only [isNatStr, Bool.and_eq_true, List.all_eq_true] at h
  cases l with
  | nil => simp at h
  | cons c cs => exact ⟨c, List.mem_cons_self c cs, h.2 c (List.mem_cons_self c cs)⟩

/-! ### splitOnChar lemmas -/

theorem splitOnChar_ne_nil (sep : Char) (l : Str) : splitOnChar sep l ≠ [] := by
  induction l with
  | nil => simp [splitOnChar]
  | cons c cs ih =>
    simp only [splitOnChar]
    split
    · simp
    · rcases h : splitOnChar sep cs with _ | ⟨t, ts⟩
      · exact absurd h ih
      · simp

theorem splitOnChar_not_mem {sep : Char} {l : Str} (h : sep ∉ l) :
    splitOnChar sep l = [l] := by
  induction l with
  | nil => rfl
  | cons c cs ih =>
    have hc : c ≠ sep := fun he => h (he ▸ List.mem_cons_self c cs)
    have hcs : sep ∉ cs := fun hm => h (List.mem_cons_of_mem c hm)
    simp only [splitOnChar, if_neg hc, ih hcs]

theorem splitOnChar_append {sep : Char} {a : Str} (b : Str) (h : sep ∉ a) :
    splitOnChar sep (a ++ sep :: b) = a :: splitOnChar sep b := by
  induction a with
  | nil => simp [splitOnChar]
  | cons c cs ih =>
    have hc : c ≠ sep := fun he => h (he ▸ List.mem_cons_self c cs)
    have hcs : sep ∉ cs := fun hm => h (List.mem_cons_of_mem c hm)
    rw [List.cons_append]
    simp only [splitOnChar, if_neg hc]
    rw [ih hcs]

theorem joinSep_splitOnChar (sep : Char) (l : Str) :
    joinSep sep (splitOnChar sep l) = l := by
  induction l with
  | nil => rfl
  | cons c cs ih =>
    simp only [splitOnChar]
    split
    · rename_i he
      rcases h : splitOnChar sep cs with _ | ⟨t, ts⟩
      · exact absurd h (splitOnChar_ne_nil sep cs)
      · rw [h] at ih
        simp only [joinSep, he]
        rw [ih]
        simp
    · rename_i he
      rcases h : splitOnChar sep cs with _ | ⟨t, ts⟩
      · exact absurd h (splitOnChar_ne_nil sep cs)
      · rw [h] at ih
        cases ts with
        | nil => simp only [joinSep] at ih ⊢; rw [ih]
        | cons u us =>
          simp only [joinSep] at ih ⊢
          rw [List.cons_append, ih]

theorem splitOnChar_parts_not_mem {sep : Char} {l : Str} {p : Str}
    (hp : p ∈ splitOnChar sep l) : sep ∉ p := by
  induction l generalizing p with
  | nil =>
    simp only [splitOnChar, List.mem_singleton] at hp
    subst hp; simp
  | cons c cs ih =>
    simp only [splitOnChar] at hp
    split at hp
    · rcases List.mem_cons.mp hp with h | h
      · subst h; simp
      · exact ih h
    · rename_i he
      rcases h : splitOnChar sep cs with _ | ⟨t, ts⟩
      · exact absurd h (splitOnChar_ne_nil sep cs)
      · rw [h] at hp
        rcases List.mem_cons.mp hp with h2 | h2
        · subst h2
          intro hm
          rcases List.mem_cons.mp hm with h3 | h3
          · exact he h3.symm
          · exact ih (h ▸ List.mem_cons_self t ts) h3
        · exact ih (h ▸ List.mem_cons_of_mem t h2)

theorem splitOnChar_eq_single {sep : Char} {l a : Str}
    (h : splitOnChar sep l = [a]) : l = a := by
  have := joinSep_splitOnChar sep l
  rw [h] at this
  simpa [joinSep] using this.symm

theorem splitOnChar_eq_pair {sep : Char} {l a b : Str}
    (h : splitOnChar sep l = [a, b]) :
    l = a ++ sep :: b ∧ sep ∉ a ∧ sep ∉ b := by
  have hj := joinSep_splitOnChar sep l
  rw [h] at hj
  simp only [joinSep] at hj
  refine ⟨hj.symm, ?_, ?_⟩
  · exact splitOnChar_parts_not_mem (h ▸ List.mem_cons_self a [b])
  · exact splitOnChar_parts_not_mem
      (h ▸ List.mem_cons_of_mem a (List.mem_cons_self b []))

theorem splitOnChar_eq_triple {sep : Char} {l a b c : Str}
    (h : splitOnChar sep l = [a, b, c]) :
    l = a ++ sep :: (b ++ sep :: c) ∧ sep ∉ a ∧ sep ∉ b ∧ sep ∉ c := by
  have hj := joinSep_splitOnChar sep l
  rw [h] at hj
  simp only [joinSep] at hj
  refine ⟨hj.symm, ?_, ?_, ?_⟩
  · exact splitOnChar_parts_not_mem (h ▸ List.mem_cons_self a [b, c])
  · exact splitOnChar_parts_not_mem
      (h ▸ List.mem_cons_of_mem a (List.mem_cons_self b [c]))
  · exact splitOnChar_parts_not_mem
      (h ▸ List.mem_cons_of_mem a (List.mem_cons_of_mem b (List.mem_cons_self c [])))

/-! ### Decimal printing and parsing -/

theorem digitVal_digitChar {d : ℕ} (h : d < 10) : digitVal (digitChar d) = d := by
  interval_cases d <;> decide

theorem digitChar_isDigit {d : ℕ} (h : d < 10) : (digitChar d).isDigit = true := by
  interval_cases d <;> decide

theorem parseNat_append_singleton (a : Str) (c : Char) :
    parseNat (a ++ [c]) = 10 * parseNat a + digitVal c := by
  simp [parseNat, List.foldl_append]

theorem natToStrAux_fuel {n : ℕ} :
    ∀ {f g : ℕ}, n ≤ f → n ≤ g → natToStrAux f n = natToStrAux g n := by
  induction n using Nat.strong_induction_on with
  | _ n ih =>
    intro f g hf hg
    match n, f, g with
    | 0, f, g => cases f <;> cases g <;> rfl
    | n + 1, f + 1, g + 1 =>
      simp only [natToStrAux]
      have hd : (n + 1) / 10 < n + 1 := Nat.div_lt_self (Nat.succ_pos n) (by norm_num)
      rw [ih _ hd (by omega) (by omega : (n + 1) / 10 ≤ g)]

theorem natToStrGo_zero : natToStrGo 0 = [] := rfl

theorem natToStrGo_succ (n : ℕ) :
    natToStrGo (n + 1) = natToStrGo ((n + 1) / 10) ++ [digitChar ((n + 1) % 10)] := by
  show natToStrAux (n + 1) (n + 1) = _
  simp only [natToStrAux]
  have hd : (n + 1) / 10 < n + 1 := Nat.div_lt_self (Nat.succ_pos n) (by norm_num)
  rw [natToStrAux_fuel (by omega : (n + 1) / 10 ≤ n) (le_refl _)]
  rfl

theorem parseNat_natToStrGo (n : ℕ) : parseNat (natToStrGo n) = n := by
  induction n using Nat.strong_induction_on with
  | _ n ih =>
    match n with
    | 0 => rw [natToStrGo_zero]; rfl
    | m + 1 =>
      rw [natToStrGo_succ, parseNat_append_singleton]
      have hlt : (m + 1) / 10 < m + 1 := Nat.div_lt_self (Nat.succ_pos m) (by norm_num)
      rw [ih _ hlt]
      have h10 : (m + 1) % 10 < 10 := Nat.mod_lt _ (by norm_num)
      rw [digitVal_digitChar h10]
      omega

theorem natToStrGo_all_digits (n : ℕ) :
    (natToStrGo n).all Char.isDigit = true := by
  induction n using Nat.strong_induction_on with
  | _ n ih =>
    match n with
    | 0 => rw [natToStrGo_zero]; rfl
    | m + 1 =>
      rw [natToStrGo_succ]
      have hlt : (m + 1) / 10 < m + 1 := Nat.div_lt_self (Nat.succ_pos m) (by norm_num)
      have h10 : (m + 1) % 10 < 10 := Nat.mod_lt _ (by norm_num)
      rw [List.all_append]
      simp [ih _ hlt, digitChar_isDigit h10]

theorem natToStrGo_ne_nil {n : ℕ} (h : n ≠ 0) : natToStrGo n ≠ [] := by
  match n with
  | 0 => exact absurd rfl h
  | m + 1 =>
    rw [natToStrGo_succ]
    simp

theorem parseNat_natToStr (n : ℕ) : parseNat (natToStr n) = n := by
  unfold natToStr
  split
  · rename_i h; subst h; decide
  · exact parseNat_natToStrGo n

theorem isNatStr_natToStr (n : ℕ) : isNatStr (natToStr n) = true := by
  unfold natToStr isNatStr
  split
  · decide
  · rename_i h
    rw [Bool.and_eq_true]
    exact ⟨by simpa using natToStrGo_ne_nil h, natToStrGo_all_digits n⟩

theorem natToStr_eq_zero_iff (n : ℕ) : natToStr n = ['0'] ↔ n = 0 := by
  constructor
  · intro h
    have := parseNat_natToStr n
    rw [h] at this
    simpa using this.symm
  · intro h; subst h; rfl

theorem natToStrGo_length_le {k n : ℕ} (h : n < 10 ^ k) :
    (natToStrGo n).length ≤ k := by
  induction k generalizing n with
  | zero =>
    interval_cases n
    simp [natToStrGo_zero]
  | succ k ih =>
    match n with
    | 0 => simp [natToStrGo_zero]
    | m + 1 =>
      rw [natToStrGo_succ]
      have hd : (m + 1) / 10 < 10 ^ k := by
        rw [Nat.div_lt_iff_lt_mul (by norm_num)]
        calc m + 1 < 10 ^ (k + 1) := h
        _ = 10 ^ k * 10 := by ring
      have := ih hd
      simp only [List.length_append, List.length_singleton]
      omega

theorem natToStr_length_le {k n : ℕ} (hk : 0 < k) (h : n < 10 ^ k) :
    (natToStr n).length ≤ k := by
  unfold natToStr
  split
  · simpa using hk
  · exact natToStrGo_length_le h

theorem parseNat_zero_pad (k : ℕ) (l : Str) :
    parseNat (List.replicate k '0' ++ l) = parseNat l := by
  unfold parseNat
  rw [List.foldl_append]
  congr 1
  induction k with
  | zero => rfl
  | succ k ih => simpa [List.replicate_succ, digitVal] using ih

theorem parseNat_zfill (k : ℕ) (l : Str) : parseNat (zfill k l) = parseNat l :=
  parseNat_zero_pad _ l

theorem isNatStr_zfill {k : ℕ} {l : Str} (h : isNatStr l = true) :
    isNatStr (zfill k l) = true := by
  simp only [isNatStr, Bool.and_eq_true, List.all_eq_true] at h ⊢
  constructor
  · rcases h.1 with h1
    cases l with
    | nil => simp at h1
    | cons c cs => simp [zfill]
  · intro c hc
    rw [zfill, List.mem_append] at hc
    rcases hc with hc | hc
    · rw [List.eq_of_mem_replicate hc]; decide
    · exact h.2 c hc

theorem zfill_length (k : ℕ) (l : Str) :
    (zfill k l).length = max k l.length := by
  simp only [zfill, List.length_append, List.length_replicate]
  omega

theorem parseFloatQ_of_isNatStr {l : Str} (h : isNatStr l = true) :
    parseFloatQ l = (parseNat l : ℚ) := by
  have hdot : ('.' : Char) ∉ l := not_mem_of_isNatStr h (by decide)
  rw [parseFloatQ, splitOnChar_not_mem hdot]

theorem parseFloatQ_nonneg (l : Str) : 0 ≤ parseFloatQ l := by
  rw [parseFloatQ]
  rcases splitOnChar '.' l with _ | ⟨i, _ | ⟨f, _ | _⟩⟩ <;> positivity

/-! ### Rational floor arithmetic for the duration formatter -/

theorem floor_natCast_add_div (n k : ℕ) (r : ℚ) (hk : 0 < k)
    (h0 : 0 ≤ r) (h1 : r < 1) :
    ⌊((n : ℚ) + r) / (k : ℚ)⌋ = ((n / k : ℕ) : ℤ) := by
  rw [Int.floor_eq_iff]
  have hkq : (0 : ℚ) < (k : ℚ) := by exact_mod_cast hk
  constructor
  · rw [le_div_iff₀ hkq, Int.cast_natCast]
    have h2 : ((n / k : ℕ) : ℚ) * k ≤ n := by exact_mod_cast Nat.div_mul_le_self n k
    linarith
  · rw [div_lt_iff₀ hkq, Int.cast_natCast]
    have hd := Nat.div_add_mod n k
    have hm := Nat.mod_lt n hk
    have hnat : n + 1 ≤ (n / k + 1) * k := by
      have h3 : (n / k + 1) * k = k * (n / k) + k := by ring
      omega
    have h4 : ((n : ℚ) + 1) ≤ ((n / k : ℕ) + 1) * k := by exact_mod_cast hnat
    linarith

theorem floor_natCast_div (n k : ℕ) (hk : 0 < k) :
    ⌊(n : ℚ) / (k : ℚ)⌋ = ((n / k : ℕ) : ℤ) := by
  have := floor_natCast_add_div n k 0 hk (le_refl 0) (by norm_num)
  rwa [add_zero] at this

theorem qmod_natCast_add (n k : ℕ) (r : ℚ) (hk : 0 < k)
    (h0 : 0 ≤ r) (h1 : r < 1) :
    qmod ((n : ℚ) + r) (k : ℚ) = ((n % k : ℕ) : ℚ) + r := by
  rw [qmod, floor_natCast_add_div n k r hk h0 h1]
  have h1' : k * (n / k) + n % k = n := Nat.div_add_mod n k
  have h2 : ((k * (n / k) + n % k : ℕ) : ℚ) = (n : ℚ) := by rw [h1']
  rw [Nat.cast_add, Nat.cast_mul] at h2
  rw [Int.cast_natCast]
  linarith

theorem qmod_natCast (n k : ℕ) (hk : 0 < k) :
    qmod (n : ℚ) (k : ℚ) = ((n % k : ℕ) : ℚ) := by
  have := qmod_natCast_add n k 0 hk (le_refl 0) (by norm_num)
  rwa [add_zero, add_zero] at this

theorem intToStr_natCast (m : ℕ) : intToStr (m : ℤ) = natToStr m := by
  unfold intToStr
  rw [if_neg (by omega : ¬((m : ℤ) < 0))]
  simp

theorem not_mem_natToStr {c : Char} (hc : c.isDigit = false) (n : ℕ) :
    c ∉ natToStr n :=
  not_mem_of_isNatStr (isNatStr_natToStr n) hc

theorem not_mem_zfill_natToStr {c : Char} (hc : c.isDigit = false) (k n : ℕ) :
    c ∉ zfill k (natToStr n) :=
  not_mem_of_isNatStr (isNatStr_zfill (isNatStr_natToStr n)) hc

theorem qfdiv_natCast_div (n k : ℕ) (hk : 0 < k) :
    qfdiv (n : ℚ) (k : ℚ) = ((n / k : ℕ) : ℤ) := by
  rw [qfdiv]
  exact floor_natCast_div n k hk

theorem floor_natCast_add (m : ℕ) (r : ℚ) (h0 : 0 ≤ r) (h1 : r < 1) :
    ⌊(m : ℚ) + r⌋ = (m : ℤ) := by
  rw [Int.floor_eq_iff]
  push_cast
  constructor <;> linarith

/-- Evaluation of the duration formatter cell at `n + r` seconds with
`n` natural and `0 ≤ r < 1`: the fractional part `r` is discarded
(the seconds field is a floor division). -/
theorem timedelta_cell_natCast_add (n : ℕ) (r : ℚ) (h0 : 0 ≤ r) (h1 : r < 1) :
    timedelta_to_slurm_duration_cell (some ((n : ℚ) + r)) =
      (if n / 86400 = 0 then [] else natToStr (n / 86400) ++ ['-']) ++
      (zfill 2 (natToStr (n % 86400 / 3600)) ++
        ':' :: (zfill 2 (natToStr (n % 3600 / 60)) ++
          ':' :: zfill 2 (natToStr (n % 60)))) := by
  have c864 : ((86400 : ℕ) : ℚ) = (86400 : ℚ) := by norm_num
  have c36 : ((3600 : ℕ) : ℚ) = (3600 : ℚ) := by norm_num
  have c60 : ((60 : ℕ) : ℚ) = (60 : ℚ) := by norm_num
  have hdays : qfdiv ((n : ℚ) + r) 86400 = ((n / 86400 : ℕ) : ℤ) := by
    rw [qfdiv, ← c864, floor_natCast_add_div n 86400 r (by norm_num) h0 h1]
  have hqm864 : qmod ((n : ℚ) + r) 86400 = ((n % 86400 : ℕ) : ℚ) + r := by
    rw [← c864, qmod_natCast_add n 86400 r (by norm_num) h0 h1]
  have hqm36 : qmod ((n : ℚ) + r) 3600 = ((n % 3600 : ℕ) : ℚ) + r := by
    rw [← c36, qmod_natCast_add n 3600 r (by norm_num) h0 h1]
  have hqm60 : qmod ((n : ℚ) + r) 60 = ((n % 60 : ℕ) : ℚ) + r := by
    rw [← c60, qmod_natCast_add n 60 r (by norm_num) h0 h1]
  have hh : qfdiv (qmod ((n : ℚ) + r) 86400) 3600 = ((n % 86400 / 3600 : ℕ) : ℤ) := by
    rw [hqm864, qfdiv, ← c36, floor_natCast_add_div _ 3600 r (by norm_num) h0 h1]
  have hm : qfdiv (qmod ((n : ℚ) + r) 3600) 60 = ((n % 3600 / 60 : ℕ) : ℤ) := by
    rw [hqm36, qfdiv, ← c60, floor_natCast_add_div _ 60 r (by norm_num) h0 h1]
  have hs : qfdiv (qmod ((n : ℚ) + r) 60) 1 = ((n % 60 : ℕ) : ℤ) := by
    rw [hqm60, qfdiv, div_one, floor_natCast_add _ r h0 h1]
  simp only [timedelta_to_slurm_duration_cell, hdays, hh, hm, hs,
    intToStr_natCast]
  have hif : (natToStr (n / 86400) ++ ['-'] = "0-".toList) ↔ n / 86400 = 0 := by
    constructor
    · intro h
      have h2 : natToStr (n / 86400) ++ ['-'] = ['0'] ++ ['-'] := h
      exact (natToStr_eq_zero_iff _).mp (List.append_cancel_right h2)
    · intro h
      rw [h]
      decide
  by_cases hd : n / 86400 = 0
  · rw [if_pos (hif.mpr hd), if_pos hd]
    simp [List.append_assoc]
  · rw [if_neg (fun hx => hd (hif.mp hx)), if_neg hd]
    simp [List.append_assoc]

/-- Evaluation of the duration formatter cell at a nonnegative whole number
of seconds, in terms of natural division. -/
theorem timedelta_cell_natCast (n : ℕ) :
    timedelta_to_slurm_duration_cell (some (n : ℚ)) =
      (if n / 86400 = 0 then [] else natToStr (n / 86400) ++ ['-']) ++
      (zfill 2 (natToStr (n % 86400 / 3600)) ++
        ':' :: (zfill 2 (natToStr (n % 3600 / 60)) ++
          ':' :: zfill 2 (natToStr (n % 60)))) := by
  have := timedelta_cell_natCast_add n 0 (le_refl 0) (by norm_num)
  rwa [add_zero] at this

/-! ### Round-trip: reparsing a formatted whole-second duration -/

theorem not_mem_clock {c : Char} (hc : c.isDigit = false) (hcol : c ≠ ':')
    {a b d : Str} (ha : isNatStr a = true) (hb : isNatStr b = true)
    (hd : isNatStr d = true) : c ∉ a ++ ':' :: (b ++ ':' :: d) := by
  intro hm
  rcases List.mem_append.mp hm with h | h
  · exact not_mem_of_isNatStr ha hc h
  · rcases List.mem_cons.mp h with h | h
    · exact hcol h
    · rcases List.mem_append.mp h with h | h
      · exact not_mem_of_isNatStr hb hc h
      · rcases List.mem_cons.mp h with h | h
        · exact hcol h
        · exact not_mem_of_isNatStr hd hc h

theorem splitOnChar_clock {a b d : Str} (ha : (':' : Char) ∉ a)
    (hb : (':' : Char) ∉ b) (hd : (':' : Char) ∉ d) :
    splitOnChar ':' (a ++ ':' :: (b ++ ':' :: d)) = [a, b, d] := by
  rw [splitOnChar_append _ ha, splitOnChar_append _ hb, splitOnChar_not_mem hd]

/-- Evaluating the scalar parser when only the hours:minutes:seconds regex
matches. -/
theorem parse_eval_P4 {l : Str} {a b c : Str} (h1 : matchP1 l = none)
    (h2 : matchP2 l = none) (h3 : matchP3 l = none)
    (h4 : matchP4 l = some (a, b, c)) (hok : pyFloatOk c = true) :
    slurm_duration_to_timedelta l =
      .ok (some (3600 * (parseNat a : ℚ) + 60 * (parseNat b : ℚ) +
        parseFloatQ c)) := by
  simp [slurm_duration_to_timedelta, h1, h2, h3, h4, pyFloat, hok]

/-- Evaluating the scalar parser when the days-hours:minutes:seconds regex
matches. -/
theorem parse_eval_P1 {l : Str} {a b c d : Str}
    (h1 : matchP1 l = some (a, b, c, d)) (hok : pyFloatOk d = true) :
    slurm_duration_to_timedelta l =
      .ok (some (86400 * (parseNat a : ℚ) + 3600 * (parseNat b : ℚ) +
        60 * (parseNat c : ℚ) + parseFloatQ d)) := by
  simp [slurm_duration_to_timedelta, h1, pyFloat, hok]

/-- Reparsing the formatted string of a whole-second duration recovers it. -/
theorem reparse_format (n : ℕ) :
    slurm_duration_to_timedelta
      (timedelta_to_slurm_duration_cell (some (n : ℚ))) = .ok (some (n : ℚ)) := by
  rw [timedelta_cell_natCast]
  have hHn : isNatStr (zfill 2 (natToStr (n % 86400 / 3600))) = true :=
    isNatStr_zfill (isNatStr_natToStr _)
  have hMn : isNatStr (zfill 2 (natToStr (n % 3600 / 60))) = true :=
    isNatStr_zfill (isNatStr_natToStr _)
  have hSn : isNatStr (zfill 2 (natToStr (n % 60))) = true :=
    isNatStr_zfill (isNatStr_natToStr _)
  have hHc : (':' : Char) ∉ zfill 2 (natToStr (n % 86400 / 3600)) :=
    not_mem_of_isNatStr hHn (by decide)
  have hMc : (':' : Char) ∉ zfill 2 (natToStr (n % 3600 / 60)) :=
    not_mem_of_isNatStr hMn (by decide)
  have hSc : (':' : Char) ∉ zfill 2 (natToStr (n % 60)) :=
    not_mem_of_isNatStr hSn (by decide)
  have hclockdash : ('-' : Char) ∉
      zfill 2 (natToStr (n % 86400 / 3600)) ++
        ':' :: (zfill 2 (natToStr (n % 3600 / 60)) ++
          ':' :: zfill 2 (natToStr (n % 60))) :=
    not_mem_clock (by decide) (by decide) hHn hMn hSn
  have hsplitClock :
      splitOnChar ':'
        (zfill 2 (natToStr (n % 86400 / 3600)) ++
          ':' :: (zfill 2 (natToStr (n % 3600 / 60)) ++
            ':' :: zfill 2 (natToStr (n % 60)))) =
      [zfill 2 (natToStr (n % 86400 / 3600)),
       zfill 2 (natToStr (n % 3600 / 60)),
       zfill 2 (natToStr (n % 60))] := splitOnChar_clock hHc hMc hSc
  have hpv : parseNat (zfill 2 (natToStr (n % 86400 / 3600))) = n % 86400 / 3600 := by
    rw [parseNat_zfill, parseNat_natToStr]
  have hpv2 : parseNat (zfill 2 (natToStr (n % 3600 / 60))) = n % 3600 / 60 := by
    rw [parseNat_zfill, parseNat_natToStr]
  have hpv3 : parseNat (zfill 2 (natToStr (n % 60))) = n % 60 := by
    rw [parseNat_zfill, parseNat_natToStr]
  have hfq : parseFloatQ (zfill 2 (natToStr (n % 60))) =
      ((n % 60 : ℕ) : ℚ) := by
    rw [parseFloatQ_of_isNatStr hSn, hpv3]
  by_cases hd : n / 86400 = 0
  · rw [if_pos hd, List.nil_append]
    have hsplitDash :
        splitOnChar '-'
          (zfill 2 (natToStr (n % 86400 / 3600)) ++
            ':' :: (zfill 2 (natToStr (n % 3600 / 60)) ++
              ':' :: zfill 2 (natToStr (n % 60)))) = [_] :=
      splitOnChar_not_mem hclockdash
    have h1 : matchP1 (zfill 2 (natToStr (n % 86400 / 3600)) ++
        ':' :: (zfill 2 (natToStr (n % 3600 / 60)) ++
          ':' :: zfill 2 (natToStr (n % 60)))) = none := by
      rw [matchP1, hsplitDash]
    have h2 : matchP2 (zfill 2 (natToStr (n % 86400 / 3600)) ++
        ':' :: (zfill 2 (natToStr (n % 3600 / 60)) ++
          ':' :: zfill 2 (natToStr (n % 60)))) = none := by
      rw [matchP2, hsplitDash]
    have h3 : matchP3 (zfill 2 (natToStr (n % 86400 / 3600)) ++
        ':' :: (zfill 2 (natToStr (n % 3600 / 60)) ++
          ':' :: zfill 2 (natToStr (n % 60)))) = none := by
      rw [matchP3, hsplitDash]
    have h4 : matchP4 (zfill 2 (natToStr (n % 86400 / 3600)) ++
        ':' :: (zfill 2 (natToStr (n % 3600 / 60)) ++
          ':' :: zfill 2 (natToStr (n % 60)))) =
        some (zfill 2 (natToStr (n % 86400 / 3600)),
          zfill 2 (natToStr (n % 3600 / 60)), zfill 2 (natToStr (n % 60))) := by
      rw [matchP4, hsplitClock]
      simp [hHn, hMn, isFloatChars_of_isNatStr hSn]
    rw [parse_eval_P4 h1 h2 h3 h4 (pyFloatOk_of_isNatStr hSn), hpv, hpv2, hfq]
    have harith : 3600 * (n % 86400 / 3600) + 60 * (n % 3600 / 60) + n % 60 = n := by
      omega
    congr 1
    congr 1
    exact_mod_cast congrArg (Nat.cast : ℕ → ℚ) harith
  · rw [if_neg hd]
    have hdashD : ('-' : Char) ∉ natToStr (n / 86400) :=
      not_mem_natToStr (by decide) _
    have hassoc : natToStr (n / 86400) ++ ['-'] ++
        (zfill 2 (natToStr (n % 86400 / 3600)) ++
          ':' :: (zfill 2 (natToStr (n % 3600 / 60)) ++
            ':' :: zfill 2 (natToStr (n % 60)))) =
        natToStr (n / 86400) ++ '-' ::
        (zfill 2 (natToStr (n % 86400 / 3600)) ++
          ':' :: (zfill 2 (natToStr (n % 3600 / 60)) ++
            ':' :: zfill 2 (natToStr (n % 60)))) := by
      simp [List.append_assoc]
    rw [hassoc]
    have hsplitDash :
        splitOnChar '-'
          (natToStr (n / 86400) ++ '-' ::
            (zfill 2 (natToStr (n % 86400 / 3600)) ++
              ':' :: (zfill 2 (natToStr (n % 3600 / 60)) ++
                ':' :: zfill 2 (natToStr (n % 60))))) =
          [natToStr (n / 86400),
           zfill 2 (natToStr (n % 86400 / 3600)) ++
             ':' :: (zfill 2 (natToStr (n % 3600 / 60)) ++
               ':' :: zfill 2 (natToStr (n % 60)))] := by
      rw [splitOnChar_append _ hdashD, splitOnChar_not_mem hclockdash]
    have h1 : matchP1 (natToStr (n / 86400) ++ '-' ::
        (zfill 2 (natToStr (n % 86400 / 3600)) ++
          ':' :: (zfill 2 (natToStr (n % 3600 / 60)) ++
            ':' :: zfill 2 (natToStr (n % 60))))) =
        some (natToStr (n / 86400), zfill 2 (natToStr (n % 86400 / 3600)),
          zfill 2 (natToStr (n % 3600 / 60)), zfill 2 (natToStr (n % 60))) := by
      rw [matchP1, hsplitDash]
      simp only [hsplitClock]
      simp [isNatStr_natToStr, hHn, hMn, isFloatChars_of_isNatStr hSn]
    rw [parse_eval_P1 h1 (pyFloatOk_of_isNatStr hSn), parseNat_natToStr,
      hpv, hpv2, hfq]
    have harith : 86400 * (n / 86400) + 3600 * (n % 86400 / 3600) +
        60 * (n % 3600 / 60) + n % 60 = n := by omega
    congr 1
    congr 1
    exact_mod_cast congrArg (Nat.cast : ℕ → ℚ) harith

/-- Evaluating the scalar parser when only the days-hours:minutes regex
matches. -/
theorem parse_eval_P2 {l : Str} {a b c : Str} (h1 : matchP1 l = none)
    (h2 : matchP2 l = some (a, b, c)) :
    slurm_duration_to_timedelta l =
      .ok (some (86400 * (parseNat a : ℚ) + 3600 * (parseNat b : ℚ) +
        60 * (parseNat c : ℚ))) := by
  simp [slurm_duration_to_timedelta, h1, h2]

/-- Evaluating the scalar parser when only the days-hours regex matches. -/
theorem parse_eval_P3 {l : Str} {a b : Str} (h1 : matchP1 l = none)
    (h2 : matchP2 l = none) (h3 : matchP3 l = some (a, b)) :
    slurm_duration_to_timedelta l =
      .ok (some (86400 * (parseNat a : ℚ) + 3600 * (parseNat b : ℚ))) := by
  simp [slurm_duration_to_timedelta, h1, h2, h3]

/-- Evaluating the scalar parser when only the minutes:seconds regex
matches. -/
theorem parse_eval_P5 {l : Str} {a b : Str} (h1 : matchP1 l = none)
    (h2 : matchP2 l = none) (h3 : matchP3 l = none) (h4 : matchP4 l = none)
    (h5 : matchP5 l = some (a, b)) (hok : pyFloatOk b = true) :
    slurm_duration_to_timedelta l =
      .ok (some (60 * (parseNat a : ℚ) + parseFloatQ b)) := by
  simp [slurm_duration_to_timedelta, h1, h2, h3, h4, h5, pyFloat, hok]

/-- Evaluating the scalar parser when only the bare-minutes regex matches. -/
theorem parse_eval_P6 {l : Str} {a : Str} (h1 : matchP1 l = none)
    (h2 : matchP2 l = none) (h3 : matchP3 l = none) (h4 : matchP4 l = none)
    (h5 : matchP5 l = none) (h6 : matchP6 l = some a) :
    slurm_duration_to_timedelta l = .ok (some (60 * (parseNat a : ℚ))) := by
  simp [slurm_duration_to_timedelta, h1, h2, h3, h4, h5, h6]

/-- Evaluating the scalar parser when a seconds-bearing regex matches but
`float` rejects the seconds group. -/
theorem parse_eval_P1_bad {l : Str} {a b c d : Str}
    (h1 : matchP1 l = some (a, b, c, d)) (hok : pyFloatOk d = false) :
    slurm_duration_to_timedelta l = .error (.valueError d) := by
  simp [slurm_duration_to_timedelta, h1, pyFloat, hok]

theorem parse_eval_P4_bad {l : Str} {a b c : Str} (h1 : matchP1 l = none)
    (h2 : matchP2 l = none) (h3 : matchP3 l = none)
    (h4 : matchP4 l = some (a, b, c)) (hok : pyFloatOk c = false) :
    slurm_duration_to_timedelta l = .error (.valueError c) := by
  simp [slurm_duration_to_timedelta, h1, h2, h3, h4, pyFloat, hok]

theorem parse_eval_P5_bad {l : Str} {a b : Str} (h1 : matchP1 l = none)
    (h2 : matchP2 l = none) (h3 : matchP3 l = none) (h4 : matchP4 l = none)
    (h5 : matchP5 l = some (a, b)) (hok : pyFloatOk b = false) :
    slurm_duration_to_timedelta l = .error (.valueError b) := by
  simp [slurm_duration_to_timedelta, h1, h2, h3, h4, h5, pyFloat, hok]

/-- Evaluating the scalar parser when no regex matches. -/
theorem parse_eval_none {l : Str} (h1 : matchP1 l = none)
    (h2 : matchP2 l = none) (h3 : matchP3 l = none) (h4 : matchP4 l = none)
    (h5 : matchP5 l = none) (h6 : matchP6 l = none) :
    slurm_duration_to_timedelta l =
      if default_na_is.contains l then .ok none
      else .error (.formatError l) := by
  simp only [slurm_duration_to_timedelta, h1, h2, h3, h4, h5, h6]

/-- Every duration produced by the scalar parser is nonnegative. -/
theorem parse_nonneg {l : Str} {q : ℚ}
    (h : slurm_duration_to_timedelta l = .ok (some q)) : 0 ≤ q := by
  cases h1 : matchP1 l with
  | some t =>
    obtain ⟨a, b, c, d⟩ := t
    by_cases hok : pyFloatOk d = true
    · rw [parse_eval_P1 h1 hok] at h
      simp at h
      have := parseFloatQ_nonneg d
      rw [← h]
      positivity
    · rw [parse_eval_P1_bad h1 (Bool.not_eq_true _ ▸ hok)] at h
      simp at h
  | none =>
  cases h2 : matchP2 l with
  | some t =>
    obtain ⟨a, b, c⟩ := t
    rw [parse_eval_P2 h1 h2] at h
    simp at h
    rw [← h]
    positivity
  | none =>
  cases h3 : matchP3 l with
  | some t =>
    obtain ⟨a, b⟩ := t
    rw [parse_eval_P3 h1 h2 h3] at h
    simp at h
    rw [← h]
    positivity
  | none =>
  cases h4 : matchP4 l with
  | some t =>
    obtain ⟨a, b, c⟩ := t
    by_cases hok : pyFloatOk c = true
    · rw [parse_eval_P4 h1 h2 h3 h4 hok] at h
      simp at h
      have := parseFloatQ_nonneg c
      rw [← h]
      positivity
    · rw [parse_eval_P4_bad h1 h2 h3 h4 (Bool.not_eq_true _ ▸ hok)] at h
      simp at h
  | none =>
  cases h5 : matchP5 l with
  | some t =>
    obtain ⟨a, b⟩ := t
    by_cases hok : pyFloatOk b = true
    · rw [parse_eval_P5 h1 h2 h3 h4 h5 hok] at h
      simp at h
      have := parseFloatQ_nonneg b
      rw [← h]
      positivity
    · rw [parse_eval_P5_bad h1 h2 h3 h4 h5 (Bool.not_eq_true _ ▸ hok)] at h
      simp at h
  | none =>
  cases h6 : matchP6 l with
  | some a =>
    rw [parse_eval_P6 h1 h2 h3 h4 h5 h6] at h
    simp at h
    rw [← h]
    positivity
  | none =>
  rw [parse_eval_none h1 h2 h3 h4 h5 h6] at h
  split at h <;> simp at h

theorem q_eq_natCast_of_den_one {q : ℚ} (h0 : 0 ≤ q) (hden : q.den = 1) :
    q = (q.num.toNat : ℚ) := by
  have h1 : (q.num : ℚ) = q := by
    conv_rhs => rw [← Rat.num_div_den q]
    rw [hden]
    simp
  have h2 : 0 ≤ q.num := Rat.num_nonneg.mpr h0
  rw [← h1]
  exact_mod_cast congrArg (Int.cast : ℤ → ℚ) (Int.toNat_of_nonneg h2).symm

/-! ### Concrete parse evaluations -/

theorem parse_0_30_5 :
    slurm_duration_to_timedelta ("0:30.5".toList) = .ok (some (61 / 2)) := by
  have h5 : matchP5 ("0:30.5".toList) = some ("0".toList, "30.5".toList) := by
    decide
  rw [parse_eval_P5 (by decide) (by decide) (by decide) (by decide) h5 (by decide)]
  have hsplit : splitOnChar '.' ['3', '0', '.', '5'] = [['3', '0'], ['5']] := by
    decide
  have hfq : parseFloatQ ['3', '0', '.', '5'] =
      (parseNat ['3', '0'] : ℚ) +
        (parseNat ['5'] : ℚ) / (10 : ℚ) ^ (['5'] : Str).length := by
    simp only [parseFloatQ, hsplit]
  norm_num [hfq, show parseNat ['0'] = 0 from by decide,
    show parseNat ['3', '0'] = 30 from by decide,
    show parseNat ['5'] = 5 from by decide,
    show (['5'] : Str).length = 1 from rfl]

theorem format_61_half :
    timedelta_to_slurm_duration_cell (some (61 / 2 : ℚ)) = "00:00:30".toList := by
  have he : ((61 : ℚ) / 2) = ((30 : ℕ) : ℚ) + 1 / 2 := by norm_num
  rw [he, timedelta_cell_natCast_add 30 (1 / 2) (by norm_num) (by norm_num)]
  decide

theorem parse_00_00_30 :
    slurm_duration_to_timedelta ("00:00:30".toList) = .ok (some 30) := by
  have h4 : matchP4 ("00:00:30".toList) =
      some ("00".toList, "00".toList, "30".toList) := by decide
  rw [parse_eval_P4 (by decide) (by decide) (by decide) h4 (by decide)]
  have hfq : parseFloatQ ['3', '0'] = (parseNat ['3', '0'] : ℚ) :=
    parseFloatQ_of_isNatStr (by decide)
  norm_num [hfq, show parseNat ['0', '0'] = 0 from by decide,
    show parseNat ['3', '0'] = 30 from by decide]

theorem parse_2_03_04_05 :
    slurm_duration_to_timedelta ("2-03:04:05".toList) = .ok (some 183845) := by
  have h1 : matchP1 ("2-03:04:05".toList) =
      some ("2".toList, "03".toList, "04".toList, "05".toList) := by decide
  rw [parse_eval_P1 h1 (by decide)]
  have hfq : parseFloatQ ['0', '5'] = (parseNat ['0', '5'] : ℚ) :=
    parseFloatQ_of_isNatStr (by decide)
  norm_num [hfq, show parseNat ['2'] = 2 from by decide,
    show parseNat ['0', '3'] = 3 from by decide,
    show parseNat ['0', '4'] = 4 from by decide,
    show parseNat ['0', '5'] = 5 from by decide]

theorem format_600 :
    timedelta_to_slurm_duration_cell (some (600 : ℚ)) = "00:10:00".toList := by
  have he : (600 : ℚ) = ((600 : ℕ) : ℚ) := by norm_num
  rw [he, timedelta_cell_natCast 600]
  decide

/-! ### Claim C1 -/

/-- C1 counterexample: the round trip fails on fractional seconds.
`"0:30.5"` parses to 30.5 s, formats to `"00:00:30"` (the formatter floors
to whole seconds), which re-parses to 30 s ≠ 30.5 s. -/
theorem duration_roundtrip_counterexample :
    slurm_duration_to_timedelta ("0:30.5".toList) = .ok (some (61 / 2)) ∧
    util_timedelta_to_slurm_duration [some (61 / 2)] = ["00:00:30".toList] ∧
    slurm_duration_to_timedelta ("00:00:30".toList) = .ok (some 30) ∧
    (61 / 2 : ℚ) ≠ 30 := by
  refine ⟨parse_0_30_5, ?_, parse_00_00_30, by norm_num⟩
  simp only [util_timedelta_to_slurm_duration, List.map]
  rw [format_61_half]

/-- C1 (amended): for every string of the six scheduler duration grammars,
if the parsed total duration is a whole number of seconds, then formatting
it and re-parsing yields the same total duration.  (For fractional seconds
the formatter truncates, see the counterexample.) -/
theorem duration_roundtrip_whole_seconds (s : Str) (q : ℚ)
    (h : slurm_duration_to_timedelta s = .ok (some q)) (hden : q.den = 1) :
    slurm_duration_to_timedelta (timedelta_to_slurm_duration_cell (some q)) =
      .ok (some q) := by
  have h0 := parse_nonneg h
  have he := q_eq_natCast_of_den_one h0 hden
  rw [he]
  exact reparse_format q.num.toNat

/-- C1 witness: `"2-03:04:05"` round-trips (2 days 3h4m5s = 183845 s), and
`"10"` (10 minutes = 600 s) formats to `"00:10:00"`. -/
theorem duration_roundtrip_whole_seconds_witness :
    slurm_duration_to_timedelta ("2-03:04:05".toList) = .ok (some 183845) ∧
    (183845 : ℚ).den = 1 ∧
    slurm_duration_to_timedelta
      (timedelta_to_slurm_duration_cell (some 183845)) = .ok (some 183845) ∧
    util_timedelta_to_slurm_duration [some 600] = ["00:10:00".toList] := by
  have hden : (183845 : ℚ).den = 1 := by norm_num
  refine ⟨parse_2_03_04_05, hden,
    duration_roundtrip_whole_seconds _ _ parse_2_03_04_05 hden, ?_⟩
  simp only [util_timedelta_to_slurm_duration, List.map]
  rw [format_600]

/-! ### Claim C2 -/

/-- C2 (code_bug evidence): on the input column
`["", "Unknown", "garbage"]` whose conversion failed exactly on all three
cells (only `"garbage"` is not an accepted NA marker), the `ignore` policy
returns `None` — not the count 1 that the function's docstring ("if ignore
just return number of non valid values") and the claim promise — while
`warning` returns count 1 and logs one message whose sample is exactly
`["garbage"]`, and `error` raises the ValidationError with that message. -/
theorem check_na_ignore_returns_none :
    @util_check_na ℚ [some "".toList, some "Unknown".toList,
        some "garbage".toList] [none, none, none] none .ignore =
      .ok (none, []) ∧
    @util_check_na ℚ [some "".toList, some "Unknown".toList,
        some "garbage".toList] [none, none, none] none .warning =
      .ok (some 1, [⟨1, default_na_is, [some "garbage".toList]⟩]) ∧
    @util_check_na ℚ [some "".toList, some "Unknown".toList,
        some "garbage".toList] [none, none, none] none .error =
      .error (.validationError ⟨1, default_na_is, [some "garbage".toList]⟩) := by
  exact ⟨by decide, by decide, by decide⟩

/-! ### Claim C6 -/

theorem not_mem_append_cons {c x : Char} {a b : Str} (ha : c ∉ a) (hx : c ≠ x)
    (hb : c ∉ b) : c ∉ a ++ x :: b := by
  intro hm
  rcases List.mem_append.mp hm with h | h
  · exact ha h
  · rcases List.mem_cons.mp h with h | h
    · exact hx h
    · exact hb h

theorem matchP2_eq_none_of_no_dash {l : Str} (h : ('-' : Char) ∉ l) :
    matchP2 l = none := by
  simp [matchP2, splitOnChar_not_mem h]

theorem matchP3_eq_none_of_no_dash {l : Str} (h : ('-' : Char) ∉ l) :
    matchP3 l = none := by
  simp [matchP3, splitOnChar_not_mem h]

theorem isSome_false_eq_none {α : Type} {o : Option α}
    (h : o.isSome = false) : o = none := by
  cases o with
  | none => rfl
  | some a => simp at h

theorem matchP4_eq_some {l a b c : Str} (h : matchP4 l = some (a, b, c)) :
    l = a ++ ':' :: (b ++ ':' :: c) ∧ isNatStr a = true ∧ isNatStr b = true ∧
      isFloatChars c = true := by
  unfold matchP4 at h
  rcases hs : splitOnChar ':' l with _ | ⟨x, _ | ⟨y, _ | ⟨z, _ | ⟨w, ws⟩⟩⟩⟩ <;>
    rw [hs] at h <;> simp at h
  obtain ⟨⟨⟨hnx, hny⟩, hfz⟩, hxa, hyb, hzc⟩ := h
  subst hxa; subst hyb; subst hzc
  exact ⟨(splitOnChar_eq_triple hs).1, hnx, hny, hfz⟩

theorem matchP5_eq_some {l a b : Str} (h : matchP5 l = some (a, b)) :
    l = a ++ ':' :: b ∧ isNatStr a = true ∧ isFloatChars b = true := by
  unfold matchP5 at h
  rcases hs : splitOnChar ':' l with _ | ⟨x, _ | ⟨y, _ | ⟨z, zs⟩⟩⟩ <;>
    rw [hs] at h <;> simp at h
  obtain ⟨⟨hnx, hfy⟩, hxa, hyb⟩ := h
  subst hxa; subst hyb
  exact ⟨(splitOnChar_eq_pair hs).1, hnx, hfy⟩

/-- C6 (amended): full case analysis of the scalar duration parser.  No
regex match and an NA marker gives a null duration; no match otherwise
raises the FormatError naming the string; a regex match whose seconds
group (if any) is a well-formed decimal returns a duration and never
raises; a regex match whose seconds group is malformed (several dots or no
digit, e.g. `"0:1.1.1"`) raises the float ValueError instead of returning
— the point on which the original claim fails. -/
theorem slurm_duration_parser_cases (l : Str) :
    (matchesSlurmGrammar l = false → default_na_is.contains l = true →
      slurm_duration_to_timedelta l = .ok none) ∧
    (matchesSlurmGrammar l = false → default_na_is.contains l = false →
      slurm_duration_to_timedelta l = .error (.formatError l)) ∧
    (matchesSlurmGrammar l = true → durSecondsWellFormed l = true →
      ∃ q, slurm_duration_to_timedelta l = .ok (some q)) ∧
    (matchesSlurmGrammar l = true → durSecondsWellFormed l = false →
      ∃ d, slurm_duration_to_timedelta l = .error (.valueError d)) := by
  refine ⟨?_, ?_, ?_, ?_⟩
  · intro hg hna
    simp only [matchesSlurmGrammar, Bool.or_eq_false_iff] at hg
    obtain ⟨⟨⟨⟨⟨h1, h2⟩, h3⟩, h4⟩, h5⟩, h6⟩ := hg
    rw [parse_eval_none (isSome_false_eq_none h1) (isSome_false_eq_none h2)
      (isSome_false_eq_none h3) (isSome_false_eq_none h4)
      (isSome_false_eq_none h5) (isSome_false_eq_none h6), if_pos hna]
  · intro hg hna
    simp only [matchesSlurmGrammar, Bool.or_eq_false_iff] at hg
    obtain ⟨⟨⟨⟨⟨h1, h2⟩, h3⟩, h4⟩, h5⟩, h6⟩ := hg
    rw [parse_eval_none (isSome_false_eq_none h1) (isSome_false_eq_none h2)
      (isSome_false_eq_none h3) (isSome_false_eq_none h4)
      (isSome_false_eq_none h5) (isSome_false_eq_none h6), if_neg (by simpa using hna)]
  · intro hg hwf
    cases h1 : matchP1 l with
    | some t =>
      obtain ⟨a, b, c, d⟩ := t
      simp only [durSecondsWellFormed, durSecondsField, h1] at hwf
      exact ⟨_, parse_eval_P1 h1 hwf⟩
    | none =>
    cases h2 : matchP2 l with
    | some t =>
      obtain ⟨a, b, c⟩ := t
      exact ⟨_, parse_eval_P2 h1 h2⟩
    | none =>
    cases h3 : matchP3 l with
    | some t =>
      obtain ⟨a, b⟩ := t
      exact ⟨_, parse_eval_P3 h1 h2 h3⟩
    | none =>
    cases h4 : matchP4 l with
    | some t =>
      obtain ⟨a, b, c⟩ := t
      simp only [durSecondsWellFormed, durSecondsField, h1, h4] at hwf
      exact ⟨_, parse_eval_P4 h1 h2 h3 h4 hwf⟩
    | none =>
    cases h5 : matchP5 l with
    | some t =>
      obtain ⟨a, b⟩ := t
      simp only [durSecondsWellFormed, durSecondsField, h1, h4, h5] at hwf
      exact ⟨_, parse_eval_P5 h1 h2 h3 h4 h5 hwf⟩
    | none =>
    cases h6 : matchP6 l with
    | some a => exact ⟨_, parse_eval_P6 h1 h2 h3 h4 h5 h6⟩
    | none => simp [matchesSlurmGrammar, h1, h2, h3, h4, h5, h6] at hg
  · intro hg hwf
    cases h1 : matchP1 l with
    | some t =>
      obtain ⟨a, b, c, d⟩ := t
      simp only [durSecondsWellFormed, durSecondsField, h1] at hwf
      exact ⟨d, parse_eval_P1_bad h1 hwf⟩
    | none =>
    cases h4 : matchP4 l with
    | some t =>
      obtain ⟨a, b, c⟩ := t
      simp only [durSecondsWellFormed, durSecondsField, h1, h4] at hwf
      obtain ⟨hl, ha, hb, hc⟩ := matchP4_eq_some h4
      have hdash : ('-' : Char) ∉ l := by
        rw [hl]
        exact not_mem_append_cons (not_mem_of_isNatStr ha (by decide))
          (by decide)
          (not_mem_append_cons (not_mem_of_isNatStr hb (by decide))
            (by decide) (not_mem_of_isFloatChars hc (by decide)))
      exact ⟨c, parse_eval_P4_bad h1 (matchP2_eq_none_of_no_dash hdash)
        (matchP3_eq_none_of_no_dash hdash) h4 hwf⟩
    | none =>
    cases h5 : matchP5 l with
    | some t =>
      obtain ⟨a, b⟩ := t
      simp only [durSecondsWellFormed, durSecondsField, h1, h4, h5] at hwf
      obtain ⟨hl, ha, hb⟩ := matchP5_eq_some h5
      have hdash : ('-' : Char) ∉ l := by
        rw [hl]
        exact not_mem_append_cons (not_mem_of_isNatStr ha (by decide))
          (by decide) (not_mem_of_isFloatChars hb (by decide))
      exact ⟨b, parse_eval_P5_bad h1 (matchP2_eq_none_of_no_dash hdash)
        (matchP3_eq_none_of_no_dash hdash) h4 h5 hwf⟩
    | none =>
      simp [durSecondsWellFormed, durSecondsField, h1, h4, h5] at hwf

/-- C6 counterexample: `"0:1.1.1"` matches the minutes:seconds regex (its
seconds group `[0-9.]+` admits `"1.1.1"`), yet the parser raises the float
conversion ValueError instead of returning a duration (and instead of the
FormatError promised for unmatched strings). -/
theorem slurm_duration_parser_counterexample :
    matchesSlurmGrammar ("0:1.1.1".toList) = true ∧
    slurm_duration_to_timedelta ("0:1.1.1".toList) =
      .error (.valueError ("1.1.1".toList)) := by
  constructor
  · decide
  · have h5 : matchP5 ("0:1.1.1".toList) =
        some ("0".toList, "1.1.1".toList) := by decide
    exact parse_eval_P5_bad (by decide) (by decide) (by decide) (by decide)
      h5 (by decide)

/-- C6 witness: the NA marker `""` parses to a null duration and `"bogus"`
raises the FormatError naming it. -/
theorem slurm_duration_parser_cases_witness :
    slurm_duration_to_timedelta ("".toList) = .ok none ∧
    slurm_duration_to_timedelta ("bogus".toList) =
      .error (.formatError ("bogus".toList)) :=
  ⟨(slurm_duration_parser_cases ("".toList)).1 (by decide) (by decide),
   (slurm_duration_parser_cases ("bogus".toList)).2.1 (by decide) (by decide)⟩

/-! ### Claim C3: the batch rewriting -/

theorem rw5_id {l : Str} (h : ('-' : Char) ∉ l) : rw5 l = l := by
  induction l with
  | nil => rfl
  | cons c cs ih =>
    have hc : c ≠ '-' := fun he => h (he ▸ List.mem_cons_self c cs)
    have hcs : ('-' : Char) ∉ cs := fun hm => h (List.mem_cons_of_mem c hm)
    simp only [rw5, List.flatMap_cons, if_neg hc]
    simpa [rw5] using ih hcs

theorem rw5_append (a b : Str) : rw5 (a ++ b) = rw5 a ++ rw5 b := by
  simp [rw5, List.flatMap_append]

theorem rw5_dash_cons (b : Str) :
    rw5 ('-' :: b) = ' ' :: 'd' :: 'a' :: 'y' :: 's' :: ' ' :: rw5 b := by
  simp [rw5, List.flatMap_cons]

theorem rw1_id {l : Str} (h : isNatStr l = false) : rw1 l = l := by
  simp [rw1, h]

theorem rw1_nat {l : Str} (h : isNatStr l = true) : rw1 l = l ++ [' ', 'm'] := by
  simp [rw1, h]

theorem isNatStr_false_of_mem {l : Str} {c : Char} (hm : c ∈ l)
    (hc : c.isDigit = false) : isNatStr l = false := by
  by_contra h
  exact not_mem_of_isNatStr (Bool.of_not_eq_false h) hc hm

theorem rw2_no_colon {l : Str} (h : (':' : Char) ∉ l) : rw2 l = l := by
  simp [rw2, splitOnChar_not_mem h]

theorem rw2_pair_bad {l x y : Str} (hs : splitOnChar ':' l = [x, y])
    (hb : (isNatStr x && isFloatChars y) = false) : rw2 l = l := by
  simp [rw2, hs, hb]

theorem rw2_triple {l x y z : Str} (hs : splitOnChar ':' l = [x, y, z]) :
    rw2 l = l := by
  simp [rw2, hs]

theorem rw2_hit {l x y : Str} (hs : splitOnChar ':' l = [x, y])
    (hx : isNatStr x = true) (hy : isFloatChars y = true) :
    rw2 l = x ++ ' ' :: 'm' :: ' ' :: (y ++ [' ', 'S']) := by
  simp [rw2, hs, hx, hy]

theorem rw3_no_dash {l : Str} (h : ('-' : Char) ∉ l) : rw3 l = l := by
  simp [rw3, splitOnChar_not_mem h]

theorem rw3_pair_bad {l x y : Str} (hs : splitOnChar '-' l = [x, y])
    (hb : (isNatStr x && isNatStr y) = false) : rw3 l = l := by
  simp [rw3, hs, hb]

theorem rw3_hit {l x y : Str} (hs : splitOnChar '-' l = [x, y])
    (hx : isNatStr x = true) (hy : isNatStr y = true) :
    rw3 l = x ++ ' ' :: 'D' :: ' ' :: (y ++ [' ', 'h']) := by
  simp [rw3, hs, hx, hy]

theorem rw4_no_dash {l : Str} (h : ('-' : Char) ∉ l) : rw4 l = l := by
  simp [rw4, splitOnChar_not_mem h]

theorem rw4_rest_single {l x y : Str} (hs : splitOnChar '-' l = [x, y])
    (hy : (':' : Char) ∉ y) : rw4 l = l := by
  simp [rw4, hs, splitOnChar_not_mem hy]

theorem rw4_rest_triple {l x y b c d : Str} (hs : splitOnChar '-' l = [x, y])
    (hy : splitOnChar ':' y = [b, c, d]) : rw4 l = l := by
  simp [rw4, hs, hy]

theorem rw4_hit {l x y b c : Str} (hs : splitOnChar '-' l = [x, y])
    (hy : splitOnChar ':' y = [b, c]) (hx : isNatStr x = true)
    (hb : isNatStr b = true) (hc : isNatStr c = true) :
    rw4 l = l ++ [':', '0', '0'] := by
  simp [rw4, hs, hy, hx, hb, hc]

theorem pdNum_of_pyFloatOk {l : Str} (h : pyFloatOk l = true) :
    pdNum l = some (parseFloatQ l) := by
  simp [pdNum, h]

/-- matchP6 destructured. -/
theorem matchP6_eq_some {l a : Str} (h : matchP6 l = some a) :
    l = a ∧ isNatStr a = true := by
  unfold matchP6 at h
  by_cases hn : isNatStr l = true
  · rw [if_pos hn] at h
    obtain rfl : l = a := by simpa using h
    exact ⟨rfl, hn⟩
  · rw [if_neg hn] at h
    simp at h

theorem matchP3_eq_some {l a b : Str} (h : matchP3 l = some (a, b)) :
    l = a ++ '-' :: b ∧ isNatStr a = true ∧ isNatStr b = true := by
  unfold matchP3 at h
  rcases hs : splitOnChar '-' l with _ | ⟨x, _ | ⟨y, _ | ⟨z, zs⟩⟩⟩ <;>
    rw [hs] at h <;> simp at h
  obtain ⟨⟨hnx, hny⟩, hxa, hyb⟩ := h
  subst hxa; subst hyb
  exact ⟨(splitOnChar_eq_pair hs).1, hnx, hny⟩

theorem matchP2_eq_some {l a b c : Str} (h : matchP2 l = some (a, b, c)) :
    l = a ++ '-' :: (b ++ ':' :: c) ∧ isNatStr a = true ∧ isNatStr b = true ∧
      isNatStr c = true := by
  unfold matchP2 at h
  rcases hs : splitOnChar '-' l with _ | ⟨x, _ | ⟨y, _ | ⟨z, zs⟩⟩⟩ <;>
    rw [hs] at h <;> try simp at h
  rcases hy : splitOnChar ':' y with _ | ⟨u, _ | ⟨v, _ | ⟨w, ws⟩⟩⟩ <;>
    rw [hy] at h <;> simp at h
  obtain ⟨⟨⟨hnx, hnu⟩, hnv⟩, hxa, hub, hvc⟩ := h
  subst hxa; subst hub; subst hvc
  rw [(splitOnChar_eq_pair hs).1, (splitOnChar_eq_pair hy).1]
  exact ⟨rfl, hnx, hnu, hnv⟩

theorem matchP1_eq_some {l a b c d : Str} (h : matchP1 l = some (a, b, c, d)) :
    l = a ++ '-' :: (b ++ ':' :: (c ++ ':' :: d)) ∧ isNatStr a = true ∧
      isNatStr b = true ∧ isNatStr c = true ∧ isFloatChars d = true := by
  unfold matchP1 at h
  rcases hs : splitOnChar '-' l with _ | ⟨x, _ | ⟨y, _ | ⟨z, zs⟩⟩⟩ <;>
    rw [hs] at h <;> try simp at h
  rcases hy : splitOnChar ':' y with _ | ⟨u, _ | ⟨v, _ | ⟨w, _ | ⟨t, ts⟩⟩⟩⟩ <;>
    rw [hy] at h <;> simp at h
  obtain ⟨⟨⟨⟨hnx, hnu⟩, hnv⟩, hfw⟩, hxa, hub, hvc, hwd⟩ := h
  subst hxa; subst hub; subst hvc; subst hwd
  rw [(splitOnChar_eq_pair hs).1, (splitOnChar_eq_triple hy).1]
  exact ⟨rfl, hnx, hnu, hnv, hfw⟩

theorem not_mem_append2 {c : Char} {a b : Str} (ha : c ∉ a) (hb : c ∉ b) :
    c ∉ a ++ b := by
  intro hm
  rcases List.mem_append.mp hm with h | h
  · exact ha h
  · exact hb h

theorem splitOnChar_four {a b : Str} {u v : Char} (ha : (' ' : Char) ∉ a)
    (hb : (' ' : Char) ∉ b) (hu : (' ' : Char) ∉ [u]) (hv : (' ' : Char) ∉ [v]) :
    splitOnChar ' ' (a ++ ' ' :: u :: ' ' :: (b ++ [' ', v])) =
      [a, [u], b, [v]] := by
  rw [splitOnChar_append _ ha,
    show (u :: ' ' :: (b ++ [' ', v])) = [u] ++ ' ' :: (b ++ ' ' :: [v]) from rfl,
    splitOnChar_append _ hu, splitOnChar_append _ hb,
    splitOnChar_not_mem hv]

theorem splitOnChar_days {a rest : Str} (ha : (' ' : Char) ∉ a)
    (hr : (' ' : Char) ∉ rest) :
    splitOnChar ' ' (a ++ ' ' :: 'd' :: 'a' :: 'y' :: 's' :: ' ' :: rest) =
      [a, "days".toList, rest] := by
  rw [splitOnChar_append _ ha,
    show ('d' :: 'a' :: 'y' :: 's' :: ' ' :: rest) =
      "days".toList ++ ' ' :: rest from rfl,
    splitOnChar_append _ (by decide), splitOnChar_not_mem hr]

/-- Batch path on a bare-minutes string. -/
theorem batch_cell_P6 {s a : Str} (hm : matchP6 s = some a) :
    pd_to_timedelta (rewriteCell s) = some (60 * (parseNat a : ℚ)) := by
  obtain ⟨he, hn⟩ := matchP6_eq_some hm
  subst he
  have hsp : (' ' : Char) ∉ s := not_mem_of_isNatStr hn (by decide)
  have hco : (':' : Char) ∉ s := not_mem_of_isNatStr hn (by decide)
  have hda : ('-' : Char) ∉ s := not_mem_of_isNatStr hn (by decide)
  have hco2 : (':' : Char) ∉ s ++ [' ', 'm'] := not_mem_append2 hco (by decide)
  have hda2 : ('-' : Char) ∉ s ++ [' ', 'm'] := not_mem_append2 hda (by decide)
  rw [rewriteCell, rw1_nat hn, rw2_no_colon hco2, rw3_no_dash hda2,
    rw4_no_dash hda2, rw5_id hda2]
  have hsplit : splitOnChar ' ' (s ++ ' ' :: ['m']) = [s, ['m']] := by
    rw [splitOnChar_append _ hsp, splitOnChar_not_mem (by decide)]
  rw [show (s ++ [' ', 'm']) = s ++ ' ' :: ['m'] from rfl]
  simp only [pd_to_timedelta, hsplit]
  rw [pdNum_of_pyFloatOk (pyFloatOk_of_isNatStr hn),
    parseFloatQ_of_isNatStr hn]
  simp [pdUnitSeconds]
  ring

/-- Batch path on a minutes:seconds string. -/
theorem batch_cell_P5 {s a b : Str} (h1 : matchP1 s = none)
    (hm : matchP5 s = some (a, b)) (hok : pyFloatOk b = true) :
    pd_to_timedelta (rewriteCell s) =
      some (60 * (parseNat a : ℚ) + parseFloatQ b) := by
  obtain ⟨rfl, hna, hfb⟩ := matchP5_eq_some hm
  have hsa : (' ' : Char) ∉ a := not_mem_of_isNatStr hna (by decide)
  have hsb : (' ' : Char) ∉ b := not_mem_of_isFloatChars hfb (by decide)
  have hca : (':' : Char) ∉ a := not_mem_of_isNatStr hna (by decide)
  have hcb : (':' : Char) ∉ b := not_mem_of_isFloatChars hfb (by decide)
  have hdas : ('-' : Char) ∉ a ++ ':' :: b :=
    not_mem_append_cons (not_mem_of_isNatStr hna (by decide)) (by decide)
      (not_mem_of_isFloatChars hfb (by decide))
  have hs2 : splitOnChar ':' (a ++ ':' :: b) = [a, b] := by
    rw [splitOnChar_append _ hca, splitOnChar_not_mem hcb]
  have hout : ('-' : Char) ∉ a ++ ' ' :: 'm' :: ' ' :: (b ++ [' ', 'S']) := by
    refine not_mem_append_cons (not_mem_of_isNatStr hna (by decide))
      (by decide) ?_
    intro hmem
    rcases List.mem_cons.mp hmem with h | h
    · exact absurd h (by decide)
    · rcases List.mem_cons.mp h with h | h
      · exact absurd h (by decide)
      · exact not_mem_append2 (not_mem_of_isFloatChars hfb (by decide))
          (by decide) h
  rw [rewriteCell, rw1_id (isNatStr_false_of_mem
      (by simp : (':' : Char) ∈ a ++ ':' :: b) (by decide)),
    rw2_hit hs2 hna hfb, rw3_no_dash hout, rw4_no_dash hout, rw5_id hout]
  have hsplit := splitOnChar_four hsa hsb
    (by decide : (' ' : Char) ∉ ['m']) (by decide : (' ' : Char) ∉ ['S'])
  simp only [pd_to_timedelta, hsplit]
  rw [pdNum_of_pyFloatOk (pyFloatOk_of_isNatStr hna),
    pdNum_of_pyFloatOk hok, parseFloatQ_of_isNatStr hna]
  simp [pdUnitSeconds]
  ring

/-- Batch path on an hours:minutes:seconds string. -/
theorem batch_cell_P4 {s a b c : Str} (hm : matchP4 s = some (a, b, c))
    (hok : pyFloatOk c = true) :
    pd_to_timedelta (rewriteCell s) =
      some (3600 * (parseNat a : ℚ) + 60 * (parseNat b : ℚ) +
        parseFloatQ c) := by
  obtain ⟨rfl, hna, hnb, hfc⟩ := matchP4_eq_some hm
  have hca : (':' : Char) ∉ a := not_mem_of_isNatStr hna (by decide)
  have hcb : (':' : Char) ∉ b := not_mem_of_isNatStr hnb (by decide)
  have hcc : (':' : Char) ∉ c := not_mem_of_isFloatChars hfc (by decide)
  have hdash : ('-' : Char) ∉ a ++ ':' :: (b ++ ':' :: c) :=
    not_mem_append_cons (not_mem_of_isNatStr hna (by decide)) (by decide)
      (not_mem_append_cons (not_mem_of_isNatStr hnb (by decide)) (by decide)
        (not_mem_of_isFloatChars hfc (by decide)))
  have hspace : (' ' : Char) ∉ a ++ ':' :: (b ++ ':' :: c) :=
    not_mem_append_cons (not_mem_of_isNatStr hna (by decide)) (by decide)
      (not_mem_append_cons (not_mem_of_isNatStr hnb (by decide)) (by decide)
        (not_mem_of_isFloatChars hfc (by decide)))
  have hs3 : splitOnChar ':' (a ++ ':' :: (b ++ ':' :: c)) = [a, b, c] :=
    splitOnChar_clock hca hcb hcc
  rw [rewriteCell, rw1_id (isNatStr_false_of_mem
      (by simp : (':' : Char) ∈ a ++ ':' :: (b ++ ':' :: c)) (by decide)),
    rw2_triple hs3, rw3_no_dash hdash, rw4_no_dash hdash, rw5_id hdash]
  simp only [pd_to_timedelta, splitOnChar_not_mem hspace]
  simp [pdClock, hs3, hna, hnb, hok]

/-- Batch path on a days-hours string. -/
theorem batch_cell_P3 {s a b : Str} (hm : matchP3 s = some (a, b)) :
    pd_to_timedelta (rewriteCell s) =
      some (86400 * (parseNat a : ℚ) + 3600 * (parseNat b : ℚ)) := by
  obtain ⟨rfl, hna, hnb⟩ := matchP3_eq_some hm
  have hsa : (' ' : Char) ∉ a := not_mem_of_isNatStr hna (by decide)
  have hsb : (' ' : Char) ∉ b := not_mem_of_isNatStr hnb (by decide)
  have hcol : (':' : Char) ∉ a ++ '-' :: b :=
    not_mem_append_cons (not_mem_of_isNatStr hna (by decide)) (by decide)
      (not_mem_of_isNatStr hnb (by decide))
  have hs2 : splitOnChar '-' (a ++ '-' :: b) = [a, b] := by
    rw [splitOnChar_append _ (not_mem_of_isNatStr hna (by decide)),
      splitOnChar_not_mem (not_mem_of_isNatStr hnb (by decide))]
  have hout : ('-' : Char) ∉ a ++ ' ' :: 'D' :: ' ' :: (b ++ [' ', 'h']) := by
    refine not_mem_append_cons (not_mem_of_isNatStr hna (by decide))
      (by decide) ?_
    intro hmem
    rcases List.mem_cons.mp hmem with h | h
    · exact absurd h (by decide)
    · rcases List.mem_cons.mp h with h | h
      · exact absurd h (by decide)
      · exact not_mem_append2 (not_mem_of_isNatStr hnb (by decide))
          (by decide) h
  rw [rewriteCell, rw1_id (isNatStr_false_of_mem
      (by simp : ('-' : Char) ∈ a ++ '-' :: b) (by decide)),
    rw2_no_colon hcol, rw3_hit hs2 hna hnb, rw4_no_dash hout, rw5_id hout]
  have hsplit := splitOnChar_four hsa hsb
    (by decide : (' ' : Char) ∉ ['D']) (by decide : (' ' : Char) ∉ ['h'])
  simp only [pd_to_timedelta, hsplit]
  rw [pdNum_of_pyFloatOk (pyFloatOk_of_isNatStr hna),
    pdNum_of_pyFloatOk (pyFloatOk_of_isNatStr hnb),
    parseFloatQ_of_isNatStr hna, parseFloatQ_of_isNatStr hnb]
  simp [pdUnitSeconds]
  ring

/-- Batch path on a days-hours:minutes string (rewritten to `D-H:M:00` and
then to a `days`-prefixed clock). -/
theorem batch_cell_P2 {s a b c : Str} (hm : matchP2 s = some (a, b, c)) :
    pd_to_timedelta (rewriteCell s) =
      some (86400 * (parseNat a : ℚ) + 3600 * (parseNat b : ℚ) +
        60 * (parseNat c : ℚ)) := by
  obtain ⟨rfl, hna, hnb, hnc⟩ := matchP2_eq_some hm
  have hda : ('-' : Char) ∉ a := not_mem_of_isNatStr hna (by decide)
  have hdb : ('-' : Char) ∉ b := not_mem_of_isNatStr hnb (by decide)
  have hdc : ('-' : Char) ∉ c := not_mem_of_isNatStr hnc (by decide)
  have hcb : (':' : Char) ∉ b := not_mem_of_isNatStr hnb (by decide)
  have hcc : (':' : Char) ∉ c := not_mem_of_isNatStr hnc (by decide)
  have hsa : (' ' : Char) ∉ a := not_mem_of_isNatStr hna (by decide)
  have hsb : (' ' : Char) ∉ b := not_mem_of_isNatStr hnb (by decide)
  have hsc : (' ' : Char) ∉ c := not_mem_of_isNatStr hnc (by decide)
  have hcab : (':' : Char) ∉ a ++ '-' :: b :=
    not_mem_append_cons (not_mem_of_isNatStr hna (by decide)) (by decide) hcb
  have hassoc : a ++ '-' :: (b ++ ':' :: c) = (a ++ '-' :: b) ++ ':' :: c := by
    simp
  have hs2 : splitOnChar ':' (a ++ '-' :: (b ++ ':' :: c)) =
      [a ++ '-' :: b, c] := by
    rw [hassoc, splitOnChar_append _ hcab, splitOnChar_not_mem hcc]
  have hrest : ('-' : Char) ∉ b ++ ':' :: c :=
    not_mem_append_cons hdb (by decide) hdc
  have hs3 : splitOnChar '-' (a ++ '-' :: (b ++ ':' :: c)) =
      [a, b ++ ':' :: c] := by
    rw [splitOnChar_append _ hda, splitOnChar_not_mem hrest]
  have hs4 : splitOnChar ':' (b ++ ':' :: c) = [b, c] := by
    rw [splitOnChar_append _ hcb, splitOnChar_not_mem hcc]
  have hb2 : (isNatStr (a ++ '-' :: b) && isFloatChars c) = false := by
    rw [isNatStr_false_of_mem (by simp : ('-' : Char) ∈ a ++ '-' :: b)
      (by decide)]
    exact Bool.false_and _
  have hb3 : (isNatStr a && isNatStr (b ++ ':' :: c)) = false := by
    rw [isNatStr_false_of_mem (by simp : (':' : Char) ∈ b ++ ':' :: c)
      (by decide)]
    exact Bool.and_false _
  rw [rewriteCell, rw1_id (isNatStr_false_of_mem
      (by simp : ('-' : Char) ∈ a ++ '-' :: (b ++ ':' :: c)) (by decide)),
    rw2_pair_bad hs2 hb2, rw3_pair_bad hs3 hb3,
    rw4_hit hs3 hs4 hna hnb hnc, rw5_append,
    rw5_id (by decide : ('-' : Char) ∉ [':', '0', '0']),
    rw5_append, rw5_dash_cons, rw5_id hda, rw5_id hrest]
  have hfinal : a ++ ' ' :: 'd' :: 'a' :: 'y' :: 's' :: ' ' ::
        (b ++ ':' :: c) ++ [':', '0', '0'] =
      a ++ ' ' :: 'd' :: 'a' :: 'y' :: 's' :: ' ' ::
        (b ++ ':' :: (c ++ ':' :: ['0', '0'])) := by
    simp
  rw [hfinal]
  have hsrest : (' ' : Char) ∉ b ++ ':' :: (c ++ ':' :: ['0', '0']) :=
    not_mem_append_cons hsb (by decide)
      (not_mem_append_cons hsc (by decide) (by decide))
  rw [show (a ++ ' ' :: 'd' :: 'a' :: 'y' :: 's' :: ' ' ::
      (b ++ ':' :: (c ++ ':' :: ['0', '0']))) =
      a ++ ' ' :: 'd' :: 'a' :: 'y' :: 's' :: ' ' ::
      (b ++ ':' :: (c ++ ':' :: ['0', '0'])) from rfl]
  simp only [pd_to_timedelta, splitOnChar_days hsa hsrest]
  have hclock : splitOnChar ':' (b ++ ':' :: (c ++ ':' :: ['0', '0'])) =
      [b, c, ['0', '0']] := splitOnChar_clock hcb hcc (by decide)
  simp only [if_true]
  simp only [pdClock, hclock, hnb, hnc, Bool.and_self, Bool.and_true,
    Bool.true_and, if_pos (by decide : pyFloatOk ['0', '0'] = true)]
  rw [pdNum_of_pyFloatOk (pyFloatOk_of_isNatStr hna),
    parseFloatQ_of_isNatStr hna,
    parseFloatQ_of_isNatStr (by decide : isNatStr ['0', '0'] = true),
    show parseNat ['0', '0'] = 0 from by decide]
  simp [Option.bind]
  ring

/-- Batch path on a days-hours:minutes:seconds string. -/
theorem batch_cell_P1 {s a b c d : Str} (hm : matchP1 s = some (a, b, c, d))
    (hok : pyFloatOk d = true) :
    pd_to_timedelta (rewriteCell s) =
      some (86400 * (parseNat a : ℚ) + 3600 * (parseNat b : ℚ) +
        60 * (parseNat c : ℚ) + parseFloatQ d) := by
  obtain ⟨rfl, hna, hnb, hnc, hfd⟩ := matchP1_eq_some hm
  have hda : ('-' : Char) ∉ a := not_mem_of_isNatStr hna (by decide)
  have hcb : (':' : Char) ∉ b := not_mem_of_isNatStr hnb (by decide)
  have hcc : (':' : Char) ∉ c := not_mem_of_isNatStr hnc (by decide)
  have hcd : (':' : Char) ∉ d := not_mem_of_isFloatChars hfd (by decide)
  have hsa : (' ' : Char) ∉ a := not_mem_of_isNatStr hna (by decide)
  have hrest : ('-' : Char) ∉ b ++ ':' :: (c ++ ':' :: d) :=
    not_mem_append_cons (not_mem_of_isNatStr hnb (by decide)) (by decide)
      (not_mem_append_cons (not_mem_of_isNatStr hnc (by decide)) (by decide)
        (not_mem_of_isFloatChars hfd (by decide)))
  have hsrest : (' ' : Char) ∉ b ++ ':' :: (c ++ ':' :: d) :=
    not_mem_append_cons (not_mem_of_isNatStr hnb (by decide)) (by decide)
      (not_mem_append_cons (not_mem_of_isNatStr hnc (by decide)) (by decide)
        (not_mem_of_isFloatChars hfd (by decide)))
  have hcab : (':' : Char) ∉ a ++ '-' :: b :=
    not_mem_append_cons (not_mem_of_isNatStr hna (by decide)) (by decide) hcb
  have hassoc : a ++ '-' :: (b ++ ':' :: (c ++ ':' :: d)) =
      (a ++ '-' :: b) ++ ':' :: (c ++ ':' :: d) := by simp
  have hs2 : splitOnChar ':' (a ++ '-' :: (b ++ ':' :: (c ++ ':' :: d))) =
      [a ++ '-' :: b, c, d] := by
    rw [hassoc, splitOnChar_append _ hcab, splitOnChar_append _ hcc,
      splitOnChar_not_mem hcd]
  have hs3 : splitOnChar '-' (a ++ '-' :: (b ++ ':' :: (c ++ ':' :: d))) =
      [a, b ++ ':' :: (c ++ ':' :: d)] := by
    rw [splitOnChar_append _ hda, splitOnChar_not_mem hrest]
  have hs4 : splitOnChar ':' (b ++ ':' :: (c ++ ':' :: d)) = [b, c, d] :=
    splitOnChar_clock hcb hcc hcd
  have hb3 : (isNatStr a && isNatStr (b ++ ':' :: (c ++ ':' :: d))) = false := by
    rw [isNatStr_false_of_mem
      (by simp : (':' : Char) ∈ b ++ ':' :: (c ++ ':' :: d)) (by decide)]
    exact Bool.and_false _
  rw [rewriteCell, rw1_id (isNatStr_false_of_mem
      (by simp : ('-' : Char) ∈ a ++ '-' :: (b ++ ':' :: (c ++ ':' :: d)))
      (by decide)),
    rw2_triple hs2,
    rw3_pair_bad hs3 hb3,
    rw4_rest_triple hs3 hs4, rw5_append, rw5_dash_cons, rw5_id hda,
    rw5_id hrest]
  simp only [pd_to_timedelta, splitOnChar_days hsa hsrest]
  simp only [if_true]
  simp only [pdClock, hs4, hnb, hnc, Bool.and_self, Bool.and_true,
    Bool.true_and, if_pos hok]
  rw [pdNum_of_pyFloatOk (pyFloatOk_of_isNatStr hna),
    parseFloatQ_of_isNatStr hna]
  simp [Option.bind]
  ring

/-- C3: on every string of the six duration grammars (exactly the strings
on which the scalar parser succeeds with a value), the batch parser —
regex rewriting followed by the pandas duration-literal parser — produces
the numerically identical duration, both per cell and through the full
column function. -/
theorem batch_scalar_duration_equiv (s : Str) (q : ℚ)
    (h : slurm_duration_to_timedelta s = .ok (some q)) :
    pd_to_timedelta (rewriteCell s) = some q ∧
    util_slurm_duration_to_duration [some s] .ignore none = .ok [some q] := by
  have hcell : pd_to_timedelta (rewriteCell s) = some q := by
    cases h1 : matchP1 s with
    | some t =>
      obtain ⟨a, b, c, d⟩ := t
      by_cases hok : pyFloatOk d = true
      · rw [parse_eval_P1 h1 hok] at h
        simp only [Except.ok.injEq, Option.some.injEq] at h
        rw [batch_cell_P1 h1 hok, h]
      · rw [parse_eval_P1_bad h1 (by simpa using hok)] at h
        simp at h
    | none =>
    cases h2 : matchP2 s with
    | some t =>
      obtain ⟨a, b, c⟩ := t
      rw [parse_eval_P2 h1 h2] at h
      simp only [Except.ok.injEq, Option.some.injEq] at h
      rw [batch_cell_P2 h2, h]
    | none =>
    cases h3 : matchP3 s with
    | some t =>
      obtain ⟨a, b⟩ := t
      rw [parse_eval_P3 h1 h2 h3] at h
      simp only [Except.ok.injEq, Option.some.injEq] at h
      rw [batch_cell_P3 h3, h]
    | none =>
    cases h4 : matchP4 s with
    | some t =>
      obtain ⟨a, b, c⟩ := t
      by_cases hok : pyFloatOk c = true
      · rw [parse_eval_P4 h1 h2 h3 h4 hok] at h
        simp only [Except.ok.injEq, Option.some.injEq] at h
        rw [batch_cell_P4 h4 hok, h]
      · rw [parse_eval_P4_bad h1 h2 h3 h4 (by simpa using hok)] at h
        simp at h
    | none =>
    cases h5 : matchP5 s with
    | some t =>
      obtain ⟨a, b⟩ := t
      by_cases hok : pyFloatOk b = true
      · rw [parse_eval_P5 h1 h2 h3 h4 h5 hok] at h
        simp only [Except.ok.injEq, Option.some.injEq] at h
        rw [batch_cell_P5 h1 h5 hok, h]
      · rw [parse_eval_P5_bad h1 h2 h3 h4 h5 (by simpa using hok)] at h
        simp at h
    | none =>
    cases h6 : matchP6 s with
    | some a =>
      rw [parse_eval_P6 h1 h2 h3 h4 h5 h6] at h
      simp only [Except.ok.injEq, Option.some.injEq] at h
      rw [batch_cell_P6 h6, h]
    | none =>
      rw [parse_eval_none h1 h2 h3 h4 h5 h6] at h
      split at h <;> simp at h
  refine ⟨hcell, ?_⟩
  simp [util_slurm_duration_to_duration, util_check_na, hcell]

/-- C3 witness: exercised at `"2-03:04:05"`. -/
theorem batch_scalar_duration_equiv_witness :
    pd_to_timedelta (rewriteCell ("2-03:04:05".toList)) = some 183845 ∧
    util_slurm_duration_to_duration [some ("2-03:04:05".toList)]
      .ignore none = .ok [some 183845] :=
  batch_scalar_duration_equiv _ _ parse_2_03_04_05

/-! ### Claims C4 and C5: the SI-suffix parser -/

theorem takeWhile_append_of_all {p : Char → Bool} {a : Str}
    (h : a.all p = true) (b : Str) :
    (a ++ b).takeWhile p = a ++ b.takeWhile p := by
  induction a with
  | nil => rfl
  | cons c cs ih =>
    simp only [List.all_cons, Bool.and_eq_true] at h
    simp [List.takeWhile_cons, h.1, ih h.2]

theorem dropWhile_append_of_all {p : Char → Bool} {a : Str}
    (h : a.all p = true) (b : Str) :
    (a ++ b).dropWhile p = b.dropWhile p := by
  induction a with
  | nil => rfl
  | cons c cs ih =>
    simp only [List.all_cons, Bool.and_eq_true] at h
    simp [List.dropWhile_cons, h.1, ih h.2]

theorem isFloatChar_false_of_si {ch : Char} (h : isSiLetter ch = true) :
    isFloatChar ch = false := by
  simp only [isSiLetter, List.mem_cons, decide_eq_true_eq] at h
  simp only [List.not_mem_nil, or_false] at h
  rcases h with h | h | h | h | h | h | h | h | h | h | h | h <;>
    subst h <;> decide

/-- The extract regex of `util_norm_si` on a well-shaped cell: group 1 is
the number, group 2 the suffix. -/
theorem matchNormSi_decomp {num sep suf : Str}
    (hnum : isFloatChars num = true)
    (hsep : sep = [] ∨ sep = [' '])
    (hsuf : suf = [] ∨ ∃ ch, suf = [ch] ∧ isSiLetter ch = true) :
    matchNormSi (num ++ sep ++ suf) = some (num, suf) := by
  have hall : num.all isFloatChar = true := by
    simp only [isFloatChars, Bool.and_eq_true] at hnum
    exact hnum.2
  have hne : num.isEmpty = false := by
    simp only [isFloatChars, Bool.and_eq_true] at hnum
    cases hbe : num.isEmpty
    · rfl
    · rw [hbe] at hnum
      simp at hnum
  have htk : ∀ r : Str, (num ++ r).takeWhile isFloatChar =
      num ++ r.takeWhile isFloatChar := fun r => takeWhile_append_of_all hall r
  have hdr : ∀ r : Str, (num ++ r).dropWhile isFloatChar =
      r.dropWhile isFloatChar := fun r => dropWhile_append_of_all hall r
  have hempty : ∀ t : Str, (num ++ t).isEmpty = false := by
    intro t
    cases num with
    | nil => simp [List.isEmpty] at hne
    | cons c cs => rfl
  rcases hsep with rfl | rfl <;>
    rcases hsuf with rfl | ⟨ch, rfl, hch⟩ <;>
      simp only [List.append_nil, List.nil_append, List.append_assoc,
        List.singleton_append]
  · have t1 : num.takeWhile isFloatChar = num := by
      have := htk []
      simpa using this
    have d1 : num.dropWhile isFloatChar = [] := by
      have := hdr []
      simpa using this
    simp [matchNormSi, t1, d1, hne]
  · have hfc : isFloatChar ch = false := isFloatChar_false_of_si hch
    have t1 : (num ++ [ch]).takeWhile isFloatChar = num := by
      rw [htk]
      simp [List.takeWhile_cons, hfc]
    have d1 : (num ++ [ch]).dropWhile isFloatChar = [ch] := by
      rw [hdr]
      simp [List.dropWhile_cons, hfc]
    simp [matchNormSi, t1, d1, hne, hch]
  · have t1 : (num ++ [' ']).takeWhile isFloatChar = num := by
      rw [htk]
      simp [List.takeWhile_cons, show isFloatChar ' ' = false from by decide]
    have d1 : (num ++ [' ']).dropWhile isFloatChar = [' '] := by
      rw [hdr]
      simp [List.dropWhile_cons, show isFloatChar ' ' = false from by decide]
    simp [matchNormSi, t1, d1, hne, show isSiLetter ' ' = false from by decide]
  · have hfc : isFloatChar ch = false := isFloatChar_false_of_si hch
    have t1 : (num ++ ' ' :: [ch]).takeWhile isFloatChar = num := by
      rw [htk]
      simp [List.takeWhile_cons, show isFloatChar ' ' = false from by decide]
    have d1 : (num ++ ' ' :: [ch]).dropWhile isFloatChar = [' ', ch] := by
      rw [hdr]
      simp [List.dropWhile_cons, show isFloatChar ' ' = false from by decide]
    simp [matchNormSi, t1, d1, hne, hch]

theorem roundHalfEven_natCast (n : ℕ) : roundHalfEven ((n : ℕ) : ℚ) = (n : ℤ) := by
  rw [roundHalfEven]
  simp only [Int.floor_natCast, Int.cast_natCast, sub_self]
  rw [if_pos (by norm_num : (0 : ℚ) < 1 / 2)]

/-- C4: parsing a cell `<n><suffix>` (optional single space before the
suffix) with `util_norm_si` yields `n` times the suffix factor — powers of
1000 in decimal mode and powers of 1024 in binary mode, case-insensitive,
`m`/`M` both mega (stated here before the optional integer rounding, i.e.
with `convert_to_int=False`). -/
theorem norm_si_si_suffix (num sep suf : Str) (b : Bool)
    (hnum : pyFloatOk num = true)
    (hsep : sep = [] ∨ sep = [' '])
    (hsuf : suf = [] ∨ ∃ ch, suf = [ch] ∧ isSiLetter ch = true) :
    util_norm_si [some (num ++ sep ++ suf)] false [] .ignore none b =
      .ok [some (parseFloatQ num * siFactor b suf)] := by
  have hfc : isFloatChars num = true := by
    simp only [pyFloatOk, Bool.and_eq_true] at hnum
    exact hnum.1.1
  have hm : matchNormSi (num ++ (sep ++ suf)) = some (num, suf) := by
    rw [← List.append_assoc]
    exact matchNormSi_decomp hfc hsep hsuf
  simp [util_norm_si, util_check_na, norm_si_cell, hm, toNumericFloat, hnum]

/-- C4 witness: `"12M"` gives 12·1000² = 12,000,000 in decimal mode and
12·1024² = 12,582,912 in binary mode (with the default integer
conversion). -/
theorem norm_si_si_suffix_witness :
    util_norm_si [some ("12M".toList)] false [] .ignore none false =
      .ok [some (parseFloatQ ("12".toList) * siFactor false ['M'])] ∧
    util_norm_si [some ("12M".toList)] true [] .ignore none false =
      .ok [some 12000000] ∧
    util_norm_si [some ("12M".toList)] true [] .ignore none true =
      .ok [some 12582912] := by
  have h0 := norm_si_si_suffix ("12".toList) [] ['M'] false (by decide)
    (Or.inl rfl) (Or.inr ⟨'M', rfl, by decide⟩)
  have hm : matchNormSi ("12M".toList) = some ("12".toList, ['M']) := by decide
  have hv : parseFloatQ ("12".toList) = (12 : ℚ) := by
    rw [parseFloatQ_of_isNatStr (by decide)]
    norm_num [show parseNat ['1', '2'] = 12 from by decide]
  refine ⟨by simpa using h0, ?_, ?_⟩ <;>
  · simp only [util_norm_si, util_check_na, norm_si_cell, hm, toNumericFloat,
      List.map, Option.bind, Option.map, reduceIte, List.isEmpty_nil]
    simp only [show pyFloatOk ("12".toList) = true from by decide, if_true]
    rw [hv]
    simp only [siFactor]
    norm_num
    rw [if_neg (by decide : ¬('M' = 'k' ∨ 'M' = 'K'))]
    first
    | rw [show (12000000 : ℚ) = ((12000000 : ℕ) : ℚ) from by norm_num,
        roundHalfEven_natCast]
      norm_num
    | rw [show (12582912 : ℚ) = ((12582912 : ℕ) : ℚ) from by norm_num,
        roundHalfEven_natCast]
      norm_num

/-- C5: with a non-empty `return_in` that is not a recognized SI suffix,
`util_norm_si` raises the configuration ValueError regardless of the
input column's contents (under the default `ignore` NA policy); with a
recognized non-empty unit the result is the plain result with every cell
divided by that unit's factor. -/
theorem norm_si_return_in (v : List Cell) (ret : Str) (cti b : Bool)
    (na : Option (List Str)) :
    (SI_SUFFIXES_keys.contains ret = false →
      util_norm_si v cti ret .ignore na b =
        .error (.configurationError ret)) ∧
    (SI_SUFFIXES_keys.contains ret = true → ret ≠ [] →
      util_norm_si v false ret .ignore na b =
        (util_norm_si v false [] .ignore na b).map
          (List.map (Option.map (· / siFactor b ret)))) := by
  constructor
  · intro hc
    have hne : ret.isEmpty = false := by
      cases ret with
      | nil =>
        rw [show SI_SUFFIXES_keys.contains ([] : Str) = true from by decide]
          at hc
        exact absurd hc (by simp)
      | cons c cs => rfl
    have hcm : ret ∉ SI_SUFFIXES_keys := by simpa using hc
    simp only [util_norm_si, util_check_na, hne, hc, Bool.false_eq_true,
      if_false, reduceIte]
    rfl
  · intro hc hne'
    have hne : ret.isEmpty = false := by
      cases ret with
      | nil => exact absurd rfl hne'
      | cons c cs => rfl
    have hcm : ret ∈ SI_SUFFIXES_keys := by simpa using hc
    simp [util_norm_si, util_check_na, hne, hcm, Except.map]

/-- C5 witness: `return_in="x"` raises on any contents; `return_in="k"`
divides by the factor of `k`. -/
theorem norm_si_return_in_witness :
    util_norm_si [some ("12M".toList)] true ("x".toList) .ignore none false =
      .error (.configurationError ("x".toList)) ∧
    util_norm_si [some ("12M".toList)] false ['k'] .ignore none false =
      (util_norm_si [some ("12M".toList)] false [] .ignore none false).map
        (List.map (Option.map (· / siFactor false ['k']))) :=
  ⟨(norm_si_return_in [some ("12M".toList)] ("x".toList) true false none).1
      (by decide),
   (norm_si_return_in [some ("12M".toList)] ['k'] true false none).2
      (by decide) (by decide)⟩

/-! ### Claim C8: the memory-spec parser -/

theorem mem_of_getLast?_eq {l : List Char} {c : Char}
    (h : l.getLast? = some c) : c ∈ l := by
  have hm : c ∈ l.getLast? := by
    rw [h]
    rfl
  obtain ⟨hne, heq⟩ := List.mem_getLast?_eq_getLast hm
  rw [heq]
  exact List.getLast_mem hne

theorem si_letter_not_cn {ch : Char} (h : isSiLetter ch = true) :
    ch ∉ (['c', 'C', 'n', 'N'] : List Char) := by
  simp only [isSiLetter, List.mem_cons, decide_eq_true_eq] at h
  simp only [List.not_mem_nil, or_false] at h
  rcases h with h | h | h | h | h | h | h | h | h | h | h | h <;>
    subst h <;> decide

theorem float_char_not_cn {ch : Char} (h : isFloatChar ch = true) :
    ch ∉ (['c', 'C', 'n', 'N'] : List Char) := by
  intro hm
  rcases List.mem_cons.mp hm with h2 | h2
  · subst h2; simp [isFloatChar] at h
  rcases List.mem_cons.mp h2 with h3 | h3
  · subst h3; simp [isFloatChar] at h
  rcases List.mem_cons.mp h3 with h4 | h4
  · subst h4; simp [isFloatChar] at h
  rcases List.mem_cons.mp h4 with h5 | h5
  · subst h5; simp [isFloatChar] at h
  · simp at h5

/-- The memory extract regex: group 2 is the trailing `[cnCN]` qualifier,
group 1 the magnitude, whenever the magnitude matches the inner pattern
and contains no `[cnCN]` character. -/
theorem matchMemory_decomp {mag qual : Str}
    (hmag : (matchNormSi mag).isSome = true)
    (hlast : ∀ c ∈ mag, c ∉ (['c', 'C', 'n', 'N'] : List Char))
    (hq : qual = [] ∨
      ∃ q, qual = [q] ∧ q ∈ (['c', 'C', 'n', 'N'] : List Char)) :
    matchMemory (mag ++ qual) = some (mag, qual) := by
  rcases hq with rfl | ⟨q, rfl, hqm⟩
  · rw [List.append_nil, matchMemory]
    cases hgl : mag.getLast? with
    | none => simp [hgl, hmag]
    | some c =>
      have hcn := hlast c (mem_of_getLast?_eq hgl)
      simp [hgl, hcn, hmag]
  · rw [matchMemory, List.getLast?_concat]
    simp [hqm, List.dropLast_concat, hmag]

/-- C8: `util_memory` on a cell `<magnitude><qualifier>` delegates the
magnitude to `util_norm_si` (same binary / target-unit / rounding
options) and pairs it with a flag that is true exactly for the `c`/`C`
qualifier (false for `n`, `N` or no qualifier). -/
theorem util_memory_delegates (num sep suf qual : Str) (cti : Bool)
    (ret : Str) (na : Option (List Str)) (b : Bool)
    (hnum : isFloatChars num = true)
    (hsep : sep = [] ∨ sep = [' '])
    (hsuf : suf = [] ∨ ∃ ch, suf = [ch] ∧ isSiLetter ch = true)
    (hq : qual = [] ∨
      ∃ q, qual = [q] ∧ q ∈ (['c', 'C', 'n', 'N'] : List Char)) :
    util_memory [some (num ++ sep ++ suf ++ qual)] cti ret .ignore na b =
      (util_norm_si [some (num ++ sep ++ suf)] cti ret .ignore na b).map
        (fun x => (x, [(qual == ['c'] || qual == ['C'])])) ∧
    ((qual == ['c'] || qual == ['C']) = true ↔
      (qual = ['c'] ∨ qual = ['C'])) := by
  have hmag : (matchNormSi (num ++ sep ++ suf)).isSome = true := by
    rw [matchNormSi_decomp hnum hsep hsuf]
    rfl
  have hlast : ∀ c ∈ num ++ sep ++ suf, c ∉ (['c', 'C', 'n', 'N'] : List Char) := by
    intro c hc
    rcases List.mem_append.mp hc with hc2 | hc2
    · rcases List.mem_append.mp hc2 with hc3 | hc3
      · have : isFloatChar c = true := by
          simp only [isFloatChars, Bool.and_eq_true, List.all_eq_true] at hnum
          exact hnum.2 c hc3
        exact float_char_not_cn this
      · rcases hsep with rfl | rfl
        · simp at hc3
        · rw [List.mem_singleton] at hc3
          subst hc3
          decide
    · rcases hsuf with rfl | ⟨ch, rfl, hch⟩
      · simp at hc2
      · rw [List.mem_singleton] at hc2
        subst hc2
        exact si_letter_not_cn hch
  have hmm := matchMemory_decomp hmag hlast hq
  constructor
  · simp only [util_memory, List.map, Option.bind, hmm, Option.map]
    cases hres : util_norm_si [some (num ++ sep ++ suf)] cti ret .ignore na b with
    | error e => simp [hres, Except.map]
    | ok x => simp [hres, Except.map]
  · simp only [Bool.or_eq_true, beq_iff_eq]

theorem norm_si_15G_binary :
    util_norm_si [some ("1.5G".toList)] true [] .ignore none true =
      .ok [some 1610612736] := by
  have hm : matchNormSi ("1.5G".toList) = some ("1.5".toList, ['G']) := by
    decide
  have hsplit : splitOnChar '.' ['1', '.', '5'] = [['1'], ['5']] := by decide
  have hv : parseFloatQ ['1', '.', '5'] = 3 / 2 := by
    simp only [parseFloatQ, hsplit]
    norm_num [show parseNat ['1'] = 1 from by decide,
      show parseNat ['5'] = 5 from by decide,
      show (['5'] : Str).length = 1 from rfl]
  simp only [util_norm_si, util_check_na, norm_si_cell, hm, toNumericFloat,
    List.map, Option.bind, Option.map, reduceIte, List.isEmpty_nil]
  simp only [show pyFloatOk ("1.5".toList) = true from by decide, if_true]
  rw [show ("1.5".toList : Str) = ['1', '.', '5'] from rfl, hv]
  simp only [siFactor]
  norm_num
  rw [show (1610612736 : ℚ) = ((1610612736 : ℕ) : ℚ) from by norm_num,
    if_neg (by decide : ¬('G' = 'k' ∨ 'G' = 'K')),
    if_neg (by decide : ¬('G' = 'm' ∨ 'G' = 'M')),
    roundHalfEven_natCast]
  norm_num

theorem norm_si_2G_binary :
    util_norm_si [some ("2G".toList)] true [] .ignore none true =
      .ok [some 2147483648] := by
  have hm : matchNormSi ("2G".toList) = some (['2'], ['G']) := by decide
  have hv : parseFloatQ ['2'] = 2 := by
    rw [parseFloatQ_of_isNatStr (by decide)]
    norm_num [show parseNat ['2'] = 2 from by decide]
  simp only [util_norm_si, util_check_na, norm_si_cell, hm, toNumericFloat,
    List.map, Option.bind, Option.map, reduceIte, List.isEmpty_nil]
  simp only [show pyFloatOk (['2'] : Str) = true from by decide, if_true]
  rw [hv]
  simp only [siFactor]
  norm_num
  rw [show (2147483648 : ℚ) = ((2147483648 : ℕ) : ℚ) from by norm_num,
    if_neg (by decide : ¬('G' = 'k' ∨ 'G' = 'K')),
    if_neg (by decide : ¬('G' = 'm' ∨ 'G' = 'M')),
    roundHalfEven_natCast]
  norm_num

/-- C8 witness: `"1.5Gc"` gives 1.5·2³⁰ = 1,610,612,736 with per-CPU flag
true; `"2G"` gives flag false. -/
theorem util_memory_delegates_witness :
    util_memory [some ("1.5Gc".toList)] true [] .ignore none true =
      .ok ([some 1610612736], [true]) ∧
    util_memory [some ("2G".toList)] true [] .ignore none true =
      .ok ([some 2147483648], [false]) := by
  have h1 := (util_memory_delegates ("1.5".toList) [] ['G'] ['c'] true []
    none true (by decide) (Or.inl rfl) (Or.inr ⟨'G', rfl, by decide⟩)
    (Or.inr ⟨'c', rfl, by decide⟩)).1
  have h2 := (util_memory_delegates (['2'] : Str) [] ['G'] [] true []
    none true (by decide) (Or.inl rfl) (Or.inr ⟨'G', rfl, by decide⟩)
    (Or.inl rfl)).1
  constructor
  · rw [show ("1.5Gc".toList : Str) =
      "1.5".toList ++ [] ++ ['G'] ++ ['c'] from rfl, h1,
      show ("1.5".toList ++ [] ++ ['G'] : Str) = "1.5G".toList from rfl,
      norm_si_15G_binary]
    simp [Except.map]
  · rw [show ("2G".toList : Str) = ['2'] ++ [] ++ ['G'] ++ [] from rfl, h2,
      show ((['2'] : Str) ++ [] ++ ['G'] : Str) = "2G".toList from rfl,
      norm_si_2G_binary]
    simp [Except.map]

/-! ### Claim C10: util_to_int and non-integral floats -/

theorem util_check_na_error {α : Type} {v : List Cell} {x : List (Option α)}
    {na : Option (List Str)} {pol : Policy} {e : UtilError}
    (h : util_check_na v x na pol = .error e) :
    ∃ m, e = .validationError m := by
  unfold util_check_na at h
  split at h
  · simp at h
  · split at h
    · dsimp only at h
      split at h <;> simp at h
    · dsimp only at h
      split at h
      · simp only [Except.error.injEq] at h
        exact ⟨_, h.symm⟩
      · simp at h
    · dsimp only at h
      split at h <;> simp at h

theorem roundHalfEven_den_one (q : ℚ) :
    (((roundHalfEven q : ℤ) : ℚ)).den = 1 := Rat.den_intCast _

/-- C10: with `round=False`, `util_to_int` raises the `astype("Int64")`
TypeError on any column containing a cell that parses to a non-integral
number, instead of soft-coercing it; with `round=True` the TypeError can
never occur (all rounded values are integral). -/
theorem util_to_int_nonintegral (v : List Cell) (pol : Policy)
    (na : Option (List Str)) :
    (∀ c q, c ∈ v → pd_to_numeric_cell c = some q → q.den ≠ 1 →
      util_to_int v pol na false = .error .typeError) ∧
    util_to_int v pol na true ≠ .error .typeError := by
  constructor
  · intro c q hc hq hden
    have hall : (v.map pd_to_numeric_cell).all
        (fun c => c.all (fun q => q.den = 1)) = false := by
      rw [Bool.eq_false_iff]
      intro hTrue
      rw [List.all_eq_true] at hTrue
      have := hTrue (pd_to_numeric_cell c) (List.mem_map_of_mem _ hc)
      rw [hq] at this
      simp only [Option.all_some, decide_eq_true_eq] at this
      exact hden this
    simp only [util_to_int, hall, Bool.false_eq_true, if_false, reduceIte]
    rfl
  · intro he
    have hall : (v.map ((Option.map (fun q => ((roundHalfEven q : ℤ) : ℚ))) ∘
        pd_to_numeric_cell)).all
        (fun c => c.all (fun q => q.den = 1)) = true := by
      rw [List.all_eq_true]
      intro x hx
      rw [List.mem_map] at hx
      obtain ⟨y, _, rfl⟩ := hx
      cases hpc : pd_to_numeric_cell y with
      | none => simp [Function.comp, hpc]
      | some q => simp [Function.comp, hpc, roundHalfEven_den_one]
    rw [util_to_int] at he
    simp only [List.map_map, hall, reduceIte] at he
    simp only [pure_bind] at he
    cases hc : util_check_na v
        (v.map ((Option.map (fun q => ((roundHalfEven q : ℤ) : ℚ))) ∘
          pd_to_numeric_cell)) na pol with
    | ok r => rw [hc] at he; simp at he
    | error e =>
      obtain ⟨m, rfl⟩ := util_check_na_error hc
      rw [hc] at he
      simp [Except.map] at he

theorem pd_to_numeric_1_5 :
    pd_to_numeric_cell (some ("1.5".toList)) = some (3 / 2) := by
  have h : pd_to_numeric_cell (some ("1.5".toList)) =
      (if pyFloatOk ("1.5".toList) = true then
        some (parseFloatQ ("1.5".toList)) else none) := rfl
  rw [h, if_pos (by decide)]
  have hsplit : splitOnChar '.' ['1', '.', '5'] = [['1'], ['5']] := by decide
  simp only [show ("1.5".toList : Str) = ['1', '.', '5'] from rfl,
    parseFloatQ, hsplit]
  norm_num [show parseNat ['1'] = 1 from by decide,
    show parseNat ['5'] = 5 from by decide,
    show (['5'] : Str).length = 1 from rfl]

theorem roundHalfEven_3_2 : roundHalfEven (3 / 2 : ℚ) = 2 := by
  have h1 : ⌊(3 / 2 : ℚ)⌋ = 1 := by
    rw [Int.floor_eq_iff]
    norm_num
  rw [roundHalfEven]
  simp only [h1]
  norm_num

/-- C10 witness: `"1.5"` with `round=False` raises the TypeError, and the
same column with `round=True` converts to 2 (half-to-even rounding). -/
theorem util_to_int_nonintegral_witness :
    pd_to_numeric_cell (some ("1.5".toList)) = some (3 / 2) ∧
    (3 / 2 : ℚ).den ≠ 1 ∧
    util_to_int [some ("1.5".toList)] .ignore none false =
      .error .typeError ∧
    util_to_int [some ("1.5".toList)] .ignore none true = .ok [some 2] := by
  refine ⟨pd_to_numeric_1_5, by norm_num [Rat.den], ?_, ?_⟩
  · exact (util_to_int_nonintegral [some ("1.5".toList)] .ignore none).1
      (some ("1.5".toList)) (3 / 2) (by simp) pd_to_numeric_1_5
      (by norm_num [Rat.den])
  · simp only [util_to_int, util_check_na, List.map, pd_to_numeric_1_5,
      Option.map, roundHalfEven_3_2]
    norm_num [Rat.den_intCast]

/-! ### Claim C7: the duration formatter -/

theorem zfill2_natToStr_length {n : ℕ} (h : n < 100) :
    (zfill 2 (natToStr n)).length = 2 := by
  rw [zfill_length]
  have := natToStr_length_le (show (0 : ℕ) < 2 from by norm_num)
    (show n < 10 ^ 2 from by omega)
  omega

/-- C7: a null duration formats to exactly `"NA"`, the zero duration to
`"00:00:00"`, and every nonnegative duration to `D-HH:MM:SS` built from its
floor-decomposition — hours, minutes, seconds always exactly two digits
zero-padded (each field is below its modulus), with the whole day segment
(including the dash) omitted exactly when days = 0. -/
theorem timedelta_formatter_shape :
    timedelta_to_slurm_duration_cell none = "NA".toList ∧
    timedelta_to_slurm_duration_cell (some 0) = "00:00:00".toList ∧
    ∀ q : ℚ, 0 ≤ q →
      timedelta_to_slurm_duration_cell (some q) =
        (if ⌊q⌋.toNat / 86400 = 0 then []
         else natToStr (⌊q⌋.toNat / 86400) ++ ['-']) ++
        (zfill 2 (natToStr (⌊q⌋.toNat % 86400 / 3600)) ++
          ':' :: (zfill 2 (natToStr (⌊q⌋.toNat % 3600 / 60)) ++
            ':' :: zfill 2 (natToStr (⌊q⌋.toNat % 60)))) ∧
      ⌊q⌋.toNat % 86400 / 3600 < 24 ∧ ⌊q⌋.toNat % 3600 / 60 < 60 ∧
      ⌊q⌋.toNat % 60 < 60 ∧
      (zfill 2 (natToStr (⌊q⌋.toNat % 86400 / 3600))).length = 2 ∧
      (zfill 2 (natToStr (⌊q⌋.toNat % 3600 / 60))).length = 2 ∧
      (zfill 2 (natToStr (⌊q⌋.toNat % 60))).length = 2 := by
  refine ⟨rfl, ?_, ?_⟩
  · rw [show (0 : ℚ) = ((0 : ℕ) : ℚ) from by norm_num, timedelta_cell_natCast 0]
    decide
  · intro q hq
    have hfl : 0 ≤ ⌊q⌋ := Int.floor_nonneg.mpr hq
    have hn : ((⌊q⌋.toNat : ℤ) : ℚ) = ((⌊q⌋ : ℤ) : ℚ) := by
      exact_mod_cast congrArg (Int.cast : ℤ → ℚ) (Int.toNat_of_nonneg hfl)
    have hr0 : 0 ≤ q - (⌊q⌋.toNat : ℚ) := by
      have := Int.floor_le q
      push_cast at hn ⊢
      linarith
    have hr1 : q - (⌊q⌋.toNat : ℚ) < 1 := by
      have := Int.lt_floor_add_one q
      push_cast at hn ⊢
      linarith
    have hqe : q = ((⌊q⌋.toNat : ℕ) : ℚ) + (q - (⌊q⌋.toNat : ℚ)) := by ring
    have hfmt := timedelta_cell_natCast_add ⌊q⌋.toNat
      (q - (⌊q⌋.toNat : ℚ)) hr0 hr1
    refine ⟨?_, by omega, by omega, by omega,
      zfill2_natToStr_length (by omega), zfill2_natToStr_length (by omega),
      zfill2_natToStr_length (by omega)⟩
    conv_lhs => rw [hqe]
    exact hfmt

/-- C7 witness: 30.5 s formats to `"00:00:30"` (and the hypothesis `0 ≤ q`
is discharged at that input). -/
theorem timedelta_formatter_shape_witness :
    (0 : ℚ) ≤ 61 / 2 ∧
    timedelta_to_slurm_duration_cell (some (61 / 2 : ℚ)) =
      "00:00:30".toList := by
  refine ⟨by norm_num, ?_⟩
  have h := (timedelta_formatter_shape.2.2 (61 / 2 : ℚ) (by norm_num)).1
  rw [h, show ⌊(61 / 2 : ℚ)⌋ = 30 from by
    rw [Int.floor_eq_iff]
    norm_num]
  decide

/-! ### Claim C9: shape preservation of all batch converters -/

theorem util_norm_si_ok_shape {v : List Cell} {cti : Bool} {ret : Str}
    {pol : Policy} {na : Option (List Str)} {b : Bool}
    {out : List (Option ℚ)}
    (h : util_norm_si v cti ret pol na b = .ok out) :
    ∃ g : Option ℚ → Option ℚ, g none = none ∧
      out = (v.map (norm_si_cell b)).map g := by
  rw [util_norm_si] at h
  cases hc : util_check_na v (v.map (norm_si_cell b)) na pol with
  | error e =>
    rw [hc] at h
    exact Except.noConfusion h
  | ok r =>
    rw [hc] at h
    simp only [pure_bind] at h
    split at h
    · injection h with h
      cases cti with
      | false =>
        refine ⟨id, rfl, ?_⟩
        simp only [Bool.false_eq_true, reduceIte] at h
        rw [← h, List.map_id]
      | true =>
        refine ⟨Option.map (fun q => ((roundHalfEven q : ℤ) : ℚ)), rfl, ?_⟩
        simp only [reduceIte] at h
        rw [← h]
    · split at h
      · injection h with h
        cases cti with
        | false =>
          refine ⟨Option.map (· / siFactor b ret), rfl, ?_⟩
          simp only [Bool.false_eq_true, reduceIte] at h
          rw [← h]
        | true =>
          refine ⟨fun z => Option.map (fun q => ((roundHalfEven q : ℤ) : ℚ))
            (Option.map (· / siFactor b ret) z), rfl, ?_⟩
          simp only [reduceIte] at h
          rw [← h, List.map_map]
          rfl
      · exact Except.noConfusion h

theorem util_to_int_ok_shape {v : List Cell} {pol : Policy}
    {na : Option (List Str)} {rnd : Bool} {out : List (Option ℚ)}
    (h : util_to_int v pol na rnd = .ok out) :
    ∃ g : Option ℚ → Option ℚ, g none = none ∧
      out = (v.map pd_to_numeric_cell).map g := by
  rw [util_to_int] at h
  cases rnd with
  | false =>
    refine ⟨id, rfl, ?_⟩
    simp only [Bool.false_eq_true, reduceIte] at h
    split at h
    · simp only [pure_bind] at h
      cases hc : util_check_na v (v.map pd_to_numeric_cell) na pol with
      | error e =>
        rw [hc] at h
        exact Except.noConfusion h
      | ok r =>
        rw [hc] at h
        injection h with h
        rw [← h, List.map_id]
    · exact Except.noConfusion h
  | true =>
    refine ⟨Option.map (fun q => ((roundHalfEven q : ℤ) : ℚ)), rfl, ?_⟩
    simp only [reduceIte] at h
    split at h
    · simp only [pure_bind] at h
      cases hc : util_check_na v
          ((v.map pd_to_numeric_cell).map
            (Option.map (fun q => ((roundHalfEven q : ℤ) : ℚ)))) na pol with
      | error e =>
        rw [hc] at h
        exact Except.noConfusion h
      | ok r =>
        rw [hc] at h
        injection h with h
        rw [← h]
    · exact Except.noConfusion h

theorem util_to_float_ok {v : List Cell} {pol : Policy}
    {na : Option (List Str)} {out : List (Option ℚ)}
    (h : util_to_float v pol na = .ok out) :
    out = v.map pd_to_numeric_cell := by
  rw [util_to_float] at h
  cases hc : util_check_na v (v.map pd_to_numeric_cell) na pol with
  | error e =>
    rw [hc] at h
    exact Except.noConfusion h
  | ok r =>
    rw [hc] at h
    injection h with h
    exact h.symm

theorem util_factorize_ok {v : List Cell} {pol : Policy}
    {na : Option (List Str)} {out : List Cell}
    (h : util_factorize v pol na = .ok out) : out = v := by
  rw [util_factorize] at h
  cases hc : util_check_na v v na pol with
  | error e =>
    rw [hc] at h
    exact Except.noConfusion h
  | ok r =>
    rw [hc] at h
    injection h with h
    exact h.symm

theorem util_slurm_datetime_to_datetime_ok {α : Type}
    {f : Cell → Option α} {v : List Cell} {pol : Policy}
    {na : Option (List Str)} {out : List (Option α)}
    (h : util_slurm_datetime_to_datetime f v pol na = .ok out) :
    out = v.map f := by
  rw [util_slurm_datetime_to_datetime] at h
  cases hc : util_check_na v (v.map f) na pol with
  | error e =>
    rw [hc] at h
    exact Except.noConfusion h
  | ok r =>
    rw [hc] at h
    injection h with h
    exact h.symm

theorem util_slurm_duration_to_duration_ok {v : List Cell} {pol : Policy}
    {na : Option (List Str)} {out : List (Option ℚ)}
    (h : util_slurm_duration_to_duration v pol na = .ok out) :
    out = (v.map (Option.map rewriteCell)).map
      (fun c => c.bind pd_to_timedelta) := by
  rw [util_slurm_duration_to_duration] at h
  cases hc : util_check_na (v.map (Option.map rewriteCell))
      ((v.map (Option.map rewriteCell)).map
        (fun c => c.bind pd_to_timedelta)) na pol with
  | error e =>
    rw [hc] at h
    exact Except.noConfusion h
  | ok r =>
    rw [hc] at h
    injection h with h
    exact h.symm

theorem util_memory_ok {v : List Cell} {cti : Bool} {ret : Str}
    {pol : Policy} {na : Option (List Str)} {b : Bool}
    {x : List (Option ℚ)} {flags : List Bool}
    (h : util_memory v cti ret pol na b = .ok (x, flags)) :
    util_norm_si ((v.map (fun c => c.bind matchMemory)).map
        (Option.map (·.1))) cti ret pol na b = .ok x ∧
      flags = (v.map (fun c => c.bind matchMemory)).map (fun g =>
        match g with
        | some p => p.2 == ['c'] || p.2 == ['C']
        | none => false) := by
  rw [util_memory] at h
  cases hres : util_norm_si ((v.map (fun c => c.bind matchMemory)).map
      (Option.map (·.1))) cti ret pol na b with
  | error e =>
    rw [hres] at h
    exact Except.noConfusion h
  | ok y =>
    rw [hres] at h
    injection h with h
    injection h with h1 h2
    refine ⟨?_, h2.symm⟩
    rw [← h1]

/-- C9: every batch converter that returns (does not raise) preserves the
column length and the positional order, and a cell whose conversion fails
becomes a missing value at the same position (it is never dropped or
reordered); `util_memory`'s two output columns are both index-aligned with
the input. -/
theorem converters_preserve_shape :
    (∀ (v : List Cell) (cti : Bool) (ret : Str) (pol : Policy)
        (na : Option (List Str)) (b : Bool) (out : List (Option ℚ)),
      util_norm_si v cti ret pol na b = .ok out →
      out.length = v.length ∧
      ∀ (i : ℕ) (c : Cell), v[i]? = some c → ∃ y, out[i]? = some y ∧
        (norm_si_cell b c = none → y = none)) ∧
    (∀ (v : List Cell) (cti : Bool) (ret : Str) (pol : Policy)
        (na : Option (List Str)) (b : Bool) (x : List (Option ℚ))
        (flags : List Bool),
      util_memory v cti ret pol na b = .ok (x, flags) →
      x.length = v.length ∧ flags.length = v.length ∧
      ∀ (i : ℕ) (c : Cell), v[i]? = some c →
        flags[i]? = some (match c.bind matchMemory with
          | some p => p.2 == ['c'] || p.2 == ['C']
          | none => false)) ∧
    (∀ (v : List Cell) (pol : Policy) (na : Option (List Str))
        (out : List (Option ℚ)),
      util_slurm_duration_to_duration v pol na = .ok out →
      out.length = v.length ∧
      ∀ (i : ℕ) (c : Cell), v[i]? = some c →
        out[i]? = some (c.bind fun l => pd_to_timedelta (rewriteCell l))) ∧
    (∀ (v : List Cell) (pol : Policy) (na : Option (List Str)) (rnd : Bool)
        (out : List (Option ℚ)),
      util_to_int v pol na rnd = .ok out →
      out.length = v.length ∧
      ∀ (i : ℕ) (c : Cell), v[i]? = some c → ∃ y, out[i]? = some y ∧
        (pd_to_numeric_cell c = none → y = none)) ∧
    (∀ (v : List Cell) (pol : Policy) (na : Option (List Str))
        (out : List (Option ℚ)),
      util_to_float v pol na = .ok out →
      out.length = v.length ∧
      ∀ i : ℕ, out[i]? = (v[i]?).map pd_to_numeric_cell) ∧
    (∀ (v : List Cell) (pol : Policy) (na : Option (List Str))
        (out : List Cell),
      util_factorize v pol na = .ok out → out = v) ∧
    (∀ (α : Type) (f : Cell → Option α) (v : List Cell) (pol : Policy)
        (na : Option (List Str)) (out : List (Option α)),
      util_slurm_datetime_to_datetime f v pol na = .ok out →
      out.length = v.length ∧
      ∀ i : ℕ, out[i]? = (v[i]?).map f) ∧
    (∀ (w : List (Option ℚ)),
      (util_timedelta_to_slurm_duration w).length = w.length ∧
      ∀ i : ℕ, (util_timedelta_to_slurm_duration w)[i]? =
        (w[i]?).map timedelta_to_slurm_duration_cell) := by
  refine ⟨?_, ?_, ?_, ?_, ?_, ?_, ?_, ?_⟩
  · intro v cti ret pol na b out h
    obtain ⟨g, hg0, rfl⟩ := util_norm_si_ok_shape h
    refine ⟨by simp, ?_⟩
    intro i c hic
    refine ⟨g (norm_si_cell b c), ?_, ?_⟩
    · rw [List.getElem?_map, List.getElem?_map, hic]
      rfl
    · intro hn
      rw [hn]
      exact hg0
  · intro v cti ret pol na b x flags h
    obtain ⟨hx, hfl⟩ := util_memory_ok h
    obtain ⟨g, hg0, rfl⟩ := util_norm_si_ok_shape hx
    refine ⟨by simp, by rw [hfl]; simp, ?_⟩
    intro i c hic
    rw [hfl, List.getElem?_map, List.getElem?_map, hic]
    rfl
  · intro v pol na out h
    obtain rfl := util_slurm_duration_to_duration_ok h
    refine ⟨by simp, ?_⟩
    intro i c hic
    rw [List.getElem?_map, List.getElem?_map, hic]
    cases c <;> rfl
  · intro v pol na rnd out h
    obtain ⟨g, hg0, rfl⟩ := util_to_int_ok_shape h
    refine ⟨by simp, ?_⟩
    intro i c hic
    refine ⟨g (pd_to_numeric_cell c), ?_, ?_⟩
    · rw [List.getElem?_map, List.getElem?_map, hic]
      rfl
    · intro hn
      rw [hn]
      exact hg0
  · intro v pol na out h
    obtain rfl := util_to_float_ok h
    refine ⟨by simp, ?_⟩
    intro i
    rw [List.getElem?_map]
  · intro v pol na out h
    exact util_factorize_ok h
  · intro α f v pol na out h
    obtain rfl := util_slurm_datetime_to_datetime_ok h
    refine ⟨by simp, ?_⟩
    intro i
    rw [List.getElem?_map]
  · intro w
    refine ⟨by simp [util_timedelta_to_slurm_duration], ?_⟩
    intro i
    rw [util_timedelta_to_slurm_duration, List.getElem?_map]

/-- C9 witness: a two-row column whose first cell fails float conversion is
returned by `util_to_float` as a same-length column with the failed cell
missing, and the shape theorem's conclusion holds at that input. -/
theorem converters_preserve_shape_witness :
    util_to_float [some ("garbage".toList), none] .ignore none =
      .ok [none, none] ∧
    (([none, none] : List (Option ℚ)).length =
        ([some ("garbage".toList), none] : List Cell).length ∧
      ∀ i : ℕ, (([none, none] : List (Option ℚ)))[i]? =
        (([some ("garbage".toList), none] : List Cell)[i]?).map
          pd_to_numeric_cell) :=
  ⟨by decide,
   converters_preserve_shape.2.2.2.2.1 [some ("garbage".toList), none]
     .ignore none [none, none] (by decide)⟩
